import Mathlib

/-!
# Verification of the MEX-Assistant agent orchestration engine

A shallow embedding, in Lean 4, of the agent orchestration core of the
repository (`backend/insight_engine/query_processor.py` together with the
relevant behaviour of `backend/insight_engine/gemini_service.py` and
`backend/reporting/daily_report_generator.py`):

* the response parser (the `re.search` marker extraction in
  `process_merchant_question`),
* the tool-call syntax parser and the tool dispatcher (`execute_tool_call`),
* the sandboxed execution environment (`run_code`),
* the chart command validator (the `display_chart` branch), and
* the turn-bounded conversation driver (`process_merchant_question`).

Python strings are modelled as `List Char`; machine behaviour that cannot be
embedded (the semantics of `exec` on arbitrary Python snippets, the Gemini
round-trip, the tabular data collaborators) is abstracted into explicit
oracle parameters, while everything the orchestration core itself does is
translated function by function from the source.
-/

set_option autoImplicit false

namespace MexAssistant

/-! ## Python string helpers

`str.strip()`, `str.lower()`, substring containment, and slicing as used by
the orchestration code.  Python's default `strip` removes the whitespace
characters `' '`, `'\t'`, `'\n'`, `'\r'`, `'\x0b'`, `'\x0c'` (we restrict
attention to the ASCII range, which is all the orchestration code produces).
-/

/-- Python whitespace (ASCII range), as used by `str.strip()` and `\s`. -/
def isPyWS (c : Char) : Bool :=
  c = ' ' ∨ c = '\t' ∨ c = '\n' ∨ c = '\r' ∨ c = '\x0b' ∨ c = '\x0c'

/-- Remove leading Python whitespace (the left half of `str.strip()`). -/
def stripLeft (l : List Char) : List Char := l.dropWhile isPyWS

/-- Remove trailing Python whitespace (the right half of `str.strip()`). -/
def stripRight (l : List Char) : List Char := (l.reverse.dropWhile isPyWS).reverse

/-- Python `str.strip()`. -/
def pyStrip (l : List Char) : List Char := stripRight (stripLeft l)

/-- ASCII lower-casing of one character (`str.lower` / `re.IGNORECASE`). -/
def lowerChar (c : Char) : Char := c.toLower

/-- ASCII lower-casing of a string (as a character list). -/
def lowerStr (l : List Char) : List Char := l.map lowerChar

/-- Case-insensitive "pattern `pat` matches at the head of `l`". -/
def isPrefixOfCI (pat l : List Char) : Bool :=
  (lowerStr pat).isPrefixOf (lowerStr l)

/-- Index of the first case-insensitive occurrence of `pat` in `l`
(`re.search` with a literal leading pattern finds the leftmost one). -/
def firstMatchPos (pat : List Char) : List Char → Option Nat
  | [] => if isPrefixOfCI pat [] then some 0 else none
  | c :: rest =>
    if isPrefixOfCI pat (c :: rest) then some 0
    else (firstMatchPos pat rest).map (· + 1)

/-- Case-sensitive substring containment, Python's `in` operator on `str`. -/
def containsSub (sub : List Char) : List Char → Bool
  | [] => sub.isPrefixOf []
  | c :: rest => sub.isPrefixOf (c :: rest) || containsSub sub rest

/-- Python slicing `s[:n]`. -/
def pyTake (n : Nat) (l : List Char) : List Char := l.take n

/-! ## The response parser

`process_merchant_question` parses a raw model response with (source lines
119–134):

```
answer_match        = re.search(r"ANSWER:(.*?)($|CALL_FUNCTION:|Thinking:)", raw, DOTALL|IGNORECASE)
call_function_match = re.search(r"CALL_FUNCTION:(.*?)(?:ANSWER:|$|Thinking:)", raw, DOTALL|IGNORECASE)
```

Each regex starts with a literal, so `re.search` anchors at the first
case-insensitive occurrence of that literal; the lazy `(.*?)` then extends
the payload group to the earliest position where one of the terminators
matches.  Without `re.MULTILINE`, `$` matches at the end of the input and
also just before a final `'\n'`. -/

/-- Terminator test of the lazy payload scan: at the current suffix, either a
stop marker matches (case-insensitively), or `$` matches (suffix empty, or a
single final newline remains). -/
def stopsAt (stops : List (List Char)) (l : List Char) : Bool :=
  match l with
  | [] => true
  | c :: rest => (c = '\n' && rest.isEmpty) || stops.any (fun s => isPrefixOfCI s (c :: rest))

/-- Length of the lazy `(.*?)` payload group: number of characters consumed
before the first position where `stopsAt` holds (the scan always stops at the
end of the input, where `$` matches). -/
def lazyStop (stops : List (List Char)) : List Char → Nat
  | [] => 0
  | c :: rest => if stopsAt stops (c :: rest) then 0 else lazyStop stops rest + 1

/-- One marker match: start index of the marker occurrence together with the
raw (unstripped) payload group. -/
structure MarkerMatch where
  start : Nat
  payload : List Char
  deriving Repr, DecidableEq

/-- `re.search(marker + lazy payload + terminators)`: anchor at the first
case-insensitive occurrence of `marker`, then extend the payload lazily up to
the first terminator (or end of input). -/
def markerSearch (marker : List Char) (stops : List (List Char)) (raw : List Char) :
    Option MarkerMatch :=
  match firstMatchPos marker raw with
  | none => none
  | some i =>
    let tail := raw.drop (i + marker.length)
    some ⟨i, tail.take (lazyStop stops tail)⟩

def answerMarker : List Char := "ANSWER:".data
def callMarker : List Char := "CALL_FUNCTION:".data
def thinkingMarker : List Char := "Thinking:".data

/-- `answer_match` of source line 119. -/
def answerSearch (raw : List Char) : Option MarkerMatch :=
  markerSearch answerMarker [callMarker, thinkingMarker] raw

/-- `call_function_match` of source line 120. -/
def callSearch (raw : List Char) : Option MarkerMatch :=
  markerSearch callMarker [answerMarker, thinkingMarker] raw

/-- Parsed response: thinking text plus the two optional stripped payloads
(`final_answer_text`, `call_function_str` of source lines 122–134). -/
structure ParsedResponse where
  thinking : List Char
  answerText : Option (List Char)
  callText : Option (List Char)
  deriving Repr, DecidableEq

/-- Source lines 122–134: the thinking segment is everything before the
earliest marker (stripped, with a leading case-insensitive `"thinking:"`
label removed, defaulting to a placeholder when empty); each marker's payload
is stripped. -/
def parseResponse (raw : List Char) : ParsedResponse :=
  let am := answerSearch raw
  let cm := callSearch raw
  let thinkingEnd₀ := raw.length
  let thinkingEnd₁ := match am with | some m => min thinkingEnd₀ m.start | none => thinkingEnd₀
  let thinkingEnd := match cm with | some m => min thinkingEnd₁ m.start | none => thinkingEnd₁
  let thinkingPart := pyStrip (raw.take thinkingEnd)
  let thinking₁ :=
    if "thinking:".data.isPrefixOf (lowerStr thinkingPart) then
      pyStrip (thinkingPart.drop "thinking:".length)
    else thinkingPart
  let thinking := if thinking₁.isEmpty then "(No thinking provided)".data else thinking₁
  { thinking := thinking
    answerText := am.map (fun m => pyStrip m.payload)
    callText := cm.map (fun m => pyStrip m.payload) }

/-! ## The sandboxed execution environment (`run_code`, source lines 762–836)

`run_code` builds a fresh `execution_globals` dictionary (a literal, source
lines 772–798), injects the per-call user context (lines 801–806), pairs it
with a fresh empty `execution_locals` (line 808) and runs the snippet with
stdout/stderr captured.  The semantics of `exec` on an arbitrary Python
snippet cannot be embedded; it is abstracted as an oracle that receives the
freshly-built namespace pair and produces the final namespaces together with
the captured output and the optional unhandled exception. -/

/-- Python values, at the granularity the namespace claims need: modules,
builtin functions, the curated `__builtins__` dict, injected closures, and
opaque snippet-created values. -/
inductive PyVal where
  | module (name : String)
  | builtinFn (name : String)
  | builtinsDict (entries : List (String × PyVal))
  | closure (tag : String)
  | boxed (tag : String)

/-- A Python namespace (a `dict` used as `globals`/`locals`): association
list, one binding per key. -/
abbrev Namespace := List (String × PyVal)

/-- Dictionary lookup. -/
def nsLookup (n : String) (ns : Namespace) : Option PyVal :=
  (ns.find? (fun kv => kv.1 = n)).map Prod.snd

/-- The curated `__builtins__` mapping, key for key from source lines
781–797 (note the deliberate `'__import__': __import__` entry, commented
"ALLOW standard imports" in the source). -/
def sandboxBuiltins : List (String × PyVal) :=
  [("print", .builtinFn "print"), ("len", .builtinFn "len"),
   ("round", .builtinFn "round"), ("range", .builtinFn "range"),
   ("int", .builtinFn "int"), ("float", .builtinFn "float"),
   ("str", .builtinFn "str"), ("list", .builtinFn "list"),
   ("dict", .builtinFn "dict"), ("set", .builtinFn "set"),
   ("tuple", .builtinFn "tuple"), ("bool", .builtinFn "bool"),
   ("max", .builtinFn "max"), ("min", .builtinFn "min"),
   ("sum", .builtinFn "sum"), ("abs", .builtinFn "abs"),
   ("any", .builtinFn "any"), ("all", .builtinFn "all"),
   ("sorted", .builtinFn "sorted"), ("isinstance", .builtinFn "isinstance"),
   ("getattr", .builtinFn "getattr"), ("hasattr", .builtinFn "hasattr"),
   ("Exception", .builtinFn "Exception"),
   ("__import__", .builtinFn "__import__"),
   ("ValueError", .builtinFn "ValueError"), ("TypeError", .builtinFn "TypeError"),
   ("KeyError", .builtinFn "KeyError"), ("IndexError", .builtinFn "IndexError"),
   ("AttributeError", .builtinFn "AttributeError"),
   ("True", .builtinFn "True"), ("False", .builtinFn "False"),
   ("None", .builtinFn "None"),
   ("zip", .builtinFn "zip"), ("map", .builtinFn "map"),
   ("filter", .builtinFn "filter"), ("enumerate", .builtinFn "enumerate"),
   ("repr", .builtinFn "repr"), ("dir", .builtinFn "dir"),
   ("id", .builtinFn "id"), ("type", .builtinFn "type")]

/-- The base `execution_globals` literal of source lines 772–798. -/
def baseExecutionGlobals : Namespace :=
  [("pd", .module "pandas"), ("np", .module "numpy"),
   ("json", .module "json"), ("loader", .module "loader"),
   ("datetime", .module "datetime"), ("timedelta", .module "timedelta"),
   ("date", .module "date"),
   ("__builtins__", .builtinsDict sandboxBuiltins)]

/-- Source lines 801–806: inject user context, skipping any key already
bound in `execution_globals` and never overwriting `__builtins__`. -/
def injectUserContext (userCtx : Namespace) (g : Namespace) : Namespace :=
  userCtx.foldl
    (fun acc kv =>
      if (nsLookup kv.1 acc).isSome ∨ kv.1 = "__builtins__" then acc
      else acc ++ [kv])
    g

/-- The fresh globals dictionary a `run_code` call builds for its snippet:
the clean namespace template of the spec. -/
def sandboxGlobals (userCtx : Namespace) : Namespace :=
  injectUserContext userCtx baseExecutionGlobals

/-- What `exec` produced: final namespaces, captured stdout/stderr, and the
unhandled exception (type name, message) if one escaped the snippet. -/
structure ExecEffect where
  globalsAfter : Namespace
  localsAfter : Namespace
  stdout : List Char
  stderr : List Char
  exc : Option (String × List Char)

/-- Oracle for the semantics of `exec(code, globals, locals)`: given the
snippet text and the freshly-built namespace pair, what Python would do. -/
def ExecOracle := List Char → Namespace → Namespace → ExecEffect

/-- Source lines 816–821: success rendering, with the `[No stdout]` /
`[No stderr]` placeholders for empty captured output. -/
def renderRunCodeSuccess (stdout stderr : List Char) : List Char :=
  let so := if (pyStrip stdout).isEmpty then "[No stdout]".data else pyStrip stdout
  let se := if (pyStrip stderr).isEmpty then "[No stderr]".data else pyStrip stderr
  pyStrip ("--- Execution Result ---\n--- stdout ---\n".data ++ so
    ++ "\n--- stderr ---\n".data ++ se)

/-- Source lines 823–834: failure rendering, keeping whatever output was
captured before the fault, plus the fault's kind and message. -/
def renderRunCodeFailure (stdout stderr : List Char) (excType : String)
    (excMsg : List Char) : List Char :=
  let pre₁ := if (pyStrip stdout).isEmpty then [] else
    "--- stdout (before error) ---\n".data ++ pyStrip stdout ++ "\n".data
  let pre₂ := if (pyStrip stderr).isEmpty then [] else
    "--- stderr (before error) ---\n".data ++ pyStrip stderr ++ "\n".data
  pyStrip ("--- Execution Failed ---\n".data ++ pre₁ ++ pre₂
    ++ "--- Error Type ---\n".data ++ excType.data
    ++ "\n--- Error Message ---\n".data ++ excMsg)

/-- A dispatched tool result: the text handed back to the driver, tagged
with which branch (success or failure) produced it. -/
structure ToolResult where
  failed : Bool
  text : List Char
  deriving Repr

/-- The `exec` step of `run_code`: the snippet always runs on the
freshly-built globals (`sandboxGlobals userCtx`) paired with a fresh empty
locals dictionary (source lines 808–814). -/
def runCodeEffect (oracle : ExecOracle) (codeString : List Char)
    (userCtx : Namespace) : ExecEffect :=
  oracle codeString (sandboxGlobals userCtx) []

/-- `run_code` (source lines 762–836): build the fresh namespace pair, run
the snippet through the oracle, and render the captured output. -/
def runCode (oracle : ExecOracle) (codeString : List Char)
    (userCtx : Namespace) : ToolResult :=
  let eff := runCodeEffect oracle codeString userCtx
  match eff.exc with
  | none => ⟨false, renderRunCodeSuccess eff.stdout eff.stderr⟩
  | some (ty, msg) => ⟨true, renderRunCodeFailure eff.stdout eff.stderr ty msg⟩

/-! ## The tool-call syntax parser (`execute_tool_call`, source lines 570–634)

Function-name extraction, outer-parenthesis location, and the robust
`code_string` extraction regex

```
code_string\s*=\s*(?P<quote>['"]|"{3}|'{3})(.*?)(?P=quote)\s*$
```

with `re.DOTALL | re.IGNORECASE`.  The lazy content group ends at the first
occurrence of the captured quote character that is followed by nothing but
whitespace up to the end of the parameter block (the `$` anchor; with
`DOTALL` and no `MULTILINE`, `\s*$` succeeds exactly when the remaining
suffix is all whitespace). -/

/-- Is `c` a valid identifier start (`[a-zA-Z_]`)? -/
def isIdentStart (c : Char) : Bool :=
  ('a' ≤ c ∧ c ≤ 'z') ∨ ('A' ≤ c ∧ c ≤ 'Z') ∨ c = '_'

/-- Is `c` a valid identifier continuation (`[a-zA-Z0-9_]`)? -/
def isIdentCont (c : Char) : Bool :=
  isIdentStart c ∨ ('0' ≤ c ∧ c ≤ '9')

/-- `re.match(r"^\s*([a-zA-Z_][a-zA-Z0-9_]*)", s)`: skip leading whitespace,
then read one identifier; `none` when no identifier starts there. -/
def matchFuncName (l : List Char) : Option (List Char) :=
  let l' := l.dropWhile isPyWS
  match l' with
  | [] => none
  | c :: rest => if isIdentStart c then some (c :: rest.takeWhile isIdentCont) else none

/-- `s.find(ch, start)`: index of the first occurrence of `ch` at or after
`start`, `none` for Python's `-1`. -/
def pyFind (ch : Char) (l : List Char) (start : Nat) : Option Nat :=
  match (l.drop start).findIdx? (· = ch) with
  | none => none
  | some i => some (start + i)

/-- `s.rfind(ch)`: index of the last occurrence of `ch`, `none` for `-1`. -/
def pyRFind (ch : Char) (l : List Char) : Option Nat :=
  match l.reverse.findIdx? (· = ch) with
  | none => none
  | some i => some (l.length - 1 - i)

/-- `s[a+1:b]` (Python slice between the outer parentheses). -/
def pySlice (l : List Char) (a b : Nat) : List Char := (l.take b).drop a

/-- Lazy scan for the closing quote of the `code_string` regex: the content
group is everything before the first occurrence of `q` whose remaining
suffix is all whitespace (`(?P=quote)\s*$`); `none` when no such occurrence
exists (the regex fails to match). -/
def closingQuoteScan (q : Char) : List Char → Option (List Char)
  | [] => none
  | c :: rest =>
    if c = q ∧ rest.all isPyWS then some []
    else (closingQuoteScan q rest).map (c :: ·)

/-- Attempt the tail of the `code_string` regex at one position: `\s*=\s*`,
then the quote alternation `['"]|"{3}|'{3}` (a single quote character is
tried first and, with a closing quote anchored at the end of the block,
always succeeds when any alternative does), then the lazy content group. -/
def codeStringTailMatch (l : List Char) : Option (List Char) :=
  match l.dropWhile isPyWS with
  | '=' :: afterEq =>
    (match afterEq.dropWhile isPyWS with
     | q :: content =>
       if q = '\'' ∨ q = '"' then closingQuoteScan q content else none
     | [] => none)
  | _ => none

/-- `re.search` for the whole `code_string` pattern: try each successive
position for a case-insensitive `code_string` literal whose tail matches;
the leftmost success wins. -/
def codeStringExtract : List Char → Option (List Char)
  | [] => none
  | c :: rest =>
    if isPrefixOfCI "code_string".data (c :: rest) then
      match codeStringTailMatch ((c :: rest).drop "code_string".length) with
      | some content => some content
      | none => codeStringExtract rest
    else codeStringExtract rest

/-! ### Escape decoding

Source lines 613–621: the extracted raw content is passed through Python's
`unicode_escape` codec (after a `latin-1`/`backslashreplace` encode, which is
the identity on the ASCII text the claims concern); if the codec raises, a
fallback chain of plain replacements is applied.  The codec is modelled on
the escape sequences the tool-call protocol uses (`\n`, `\t`, `\r`, `\'`,
`\"`, `\\`, `\a`, `\b`, `\f`, `\v`); an escape the model does not cover
(`\x`, `\u`, octal, …) is mapped to a decoding failure, which routes the
embedding through the same fallback branch the source keeps for that case. -/

/-- The single-character escape table of `unicode_escape` (and of string
literals) restricted to the sequences modelled here. -/
def simpleEscape (c : Char) : Option Char :=
  if c = 'n' then some '\n'
  else if c = 't' then some '\t'
  else if c = 'r' then some '\r'
  else if c = '\'' then some '\''
  else if c = '"' then some '"'
  else if c = '\\' then some '\\'
  else if c = 'a' then some '\x07'
  else if c = 'b' then some '\x08'
  else if c = 'f' then some '\x0c'
  else if c = 'v' then some '\x0b'
  else none

/-- Escapes that `unicode_escape` processes by a multi-character rule not
modelled here (`\xhh`, `\uhhhh`, `\Uhhhhhhhh`, `\N{...}`, octal digits). -/
def complexEscapeStart (c : Char) : Bool :=
  c = 'x' ∨ c = 'u' ∨ c = 'U' ∨ c = 'N' ∨ ('0' ≤ c ∧ c ≤ '7')

/-- `bytes.decode('unicode_escape')` on the modelled fragment: known
single-character escapes are mapped, an unknown escape (e.g. `\q`) is kept
literally as Python does, a trailing lone backslash raises (`none`), and a
not-modelled multi-character escape is conservatively mapped to `none`. -/
def unicodeEscapeDecode : List Char → Option (List Char)
  | [] => some []
  | ['\\'] => none
  | '\\' :: c :: rest =>
    (match simpleEscape c with
     | some e => (unicodeEscapeDecode rest).map (e :: ·)
     | none =>
       if complexEscapeStart c then none
       else (unicodeEscapeDecode rest).map (fun r => '\\' :: c :: r))
  | c :: rest => (unicodeEscapeDecode rest).map (c :: ·)

/-- Python `str.replace(old, new)` on character lists (leftmost,
non-overlapping), via a character-count fuel that keeps the recursion
structural (each replacement step consumes at least one character). -/
def pyReplaceFuel (old new : List Char) : Nat → List Char → List Char
  | 0, l => l
  | _ + 1, [] => []
  | fuel + 1, c :: rest =>
    if old ≠ [] ∧ old.isPrefixOf (c :: rest) then
      new ++ pyReplaceFuel old new fuel ((c :: rest).drop old.length)
    else c :: pyReplaceFuel old new fuel rest

/-- Python `str.replace(old, new)` on character lists. -/
def pyReplace (old new : List Char) (l : List Char) : List Char :=
  pyReplaceFuel old new l.length l

/-- The fallback of source line 619:
`raw.replace('\\n','\n').replace('\\t','\t').replace("\\'","'").replace('\\"','"')`. -/
def fallbackReplace (l : List Char) : List Char :=
  pyReplace "\\\"".data "\"".data
    (pyReplace "\\'".data "'".data
      (pyReplace "\\t".data "\t".data
        (pyReplace "\\n".data "\n".data l)))

/-- Source lines 613–621: decode with `unicode_escape`, falling back to the
plain replacements when the codec raises. -/
def decodeCodeString (raw : List Char) : List Char :=
  match unicodeEscapeDecode raw with
  | some decoded => decoded
  | none => fallbackReplace raw

/-- Lines 596–628 of the `run_code` branch: extract `code_string` from the
parameter block, decode the escapes, and strip; `none` when the regex does
not match or the decoded code is empty (both are `ParameterError` returns in
the source). -/
def runCodeArgOfParams (paramsStr : List Char) : Option (List Char) :=
  match codeStringExtract paramsStr with
  | none => none
  | some raw =>
    let code := pyStrip (decodeCodeString raw)
    if code.isEmpty then none else some code

/-! ## JSON (`json.loads` / `json.dumps`)

The orchestration core round-trips chart payloads and response objects
through Python's `json` module.  JSON values are modelled with numbers kept
as their source lexeme (no claim depends on numeric re-formatting), objects
as ordered member lists with Python-`dict` lookup (last binding of a key
wins), and `json.dumps` with its default separators. -/

inductive Json where
  | null
  | bool (b : Bool)
  | num (lexeme : String)
  | str (s : String)
  | arr (items : List Json)
  | obj (members : List (String × Json))

/-- JSON whitespace (`json.loads` skips space, tab, newline, return). -/
def isJsonWS (c : Char) : Bool := c = ' ' ∨ c = '\t' ∨ c = '\n' ∨ c = '\r'

def skipJsonWS (l : List Char) : List Char := l.dropWhile isJsonWS

/-- Value of one hexadecimal digit. -/
def hexVal (c : Char) : Option Nat :=
  if '0' ≤ c ∧ c ≤ '9' then some (c.toNat - '0'.toNat)
  else if 'a' ≤ c ∧ c ≤ 'f' then some (c.toNat - 'a'.toNat + 10)
  else if 'A' ≤ c ∧ c ≤ 'F' then some (c.toNat - 'A'.toNat + 10)
  else none

/-- Parse the remainder of a JSON string literal (after the opening `"`),
returning the decoded content and the rest of the input.  Handles the
standard JSON escapes; `\u` escapes are decoded to the coded character when
it is a valid scalar value. -/
def parseJsonString : List Char → Option (List Char × List Char)
  | [] => none
  | '"' :: rest => some ([], rest)
  | '\\' :: esc :: rest =>
    (match esc with
     | '"' => (parseJsonString rest).map (fun (s, r) => ('"' :: s, r))
     | '\\' => (parseJsonString rest).map (fun (s, r) => ('\\' :: s, r))
     | '/' => (parseJsonString rest).map (fun (s, r) => ('/' :: s, r))
     | 'b' => (parseJsonString rest).map (fun (s, r) => ('\x08' :: s, r))
     | 'f' => (parseJsonString rest).map (fun (s, r) => ('\x0c' :: s, r))
     | 'n' => (parseJsonString rest).map (fun (s, r) => ('\n' :: s, r))
     | 'r' => (parseJsonString rest).map (fun (s, r) => ('\r' :: s, r))
     | 't' => (parseJsonString rest).map (fun (s, r) => ('\t' :: s, r))
     | 'u' =>
       (match rest with
        | h₁ :: h₂ :: h₃ :: h₄ :: rest' =>
          (match hexVal h₁, hexVal h₂, hexVal h₃, hexVal h₄ with
           | some n₁, some n₂, some n₃, some n₄ =>
             let n := n₁ * 4096 + n₂ * 256 + n₃ * 16 + n₄
             if n < 0xd800 then
               (parseJsonString rest').map (fun (s, r) => (Char.ofNat n :: s, r))
             else none
           | _, _, _, _ => none)
        | _ => none)
     | _ => none)
  | c :: rest =>
    if c.toNat < 0x20 then none
    else (parseJsonString rest).map (fun (s, r) => (c :: s, r))

/-- Parse a JSON number lexeme (`-?(0|[1-9][0-9]*)(\.[0-9]+)?([eE][+-]?[0-9]+)?`). -/
def parseJsonNumber (l : List Char) : Option (List Char × List Char) :=
  let (sign, l₁) := match l with | '-' :: r => (['-'], r) | _ => (([] : List Char), l)
  match l₁ with
  | c :: r =>
    if ¬ c.isDigit then none
    else
      let intPart := if c = '0' then [c] else c :: r.takeWhile Char.isDigit
      let afterInt := l₁.drop intPart.length
      let (frac, afterFrac) :=
        match afterInt with
        | '.' :: d :: r' =>
          if d.isDigit then
            ('.' :: d :: r'.takeWhile Char.isDigit,
             (d :: r').drop (1 + (r'.takeWhile Char.isDigit).length))
          else (([] : List Char), afterInt)
        | _ => (([] : List Char), afterInt)
      let (expPart, afterExp) :=
        match afterFrac with
        | e :: r' =>
          if e = 'e' ∨ e = 'E' then
            match r' with
            | s :: r'' =>
              if s = '+' ∨ s = '-' then
                (match r'' with
                 | d :: _ =>
                   if d.isDigit then
                     (e :: s :: r''.takeWhile Char.isDigit,
                      r''.drop (r''.takeWhile Char.isDigit).length)
                   else (([] : List Char), afterFrac)
                 | [] => (([] : List Char), afterFrac))
              else if s.isDigit then
                (e :: r'.takeWhile Char.isDigit,
                 r'.drop (r'.takeWhile Char.isDigit).length)
              else (([] : List Char), afterFrac)
            | [] => (([] : List Char), afterFrac)
          else (([] : List Char), afterFrac)
        | [] => (([] : List Char), afterFrac)
      if frac = [] ∧ expPart = [] ∧ afterInt ≠ afterFrac then none
      else some (sign ++ intPart ++ frac ++ expPart, afterExp)
  | [] => none

mutual

/-- `json.loads`, value production (fuel-indexed recursive descent). -/
def parseJsonValue : Nat → List Char → Option (Json × List Char)
  | 0, _ => none
  | fuel + 1, l =>
    match skipJsonWS l with
    | '{' :: r =>
      (match skipJsonWS r with
       | '}' :: r' => some (.obj [], r')
       | _ => (parseJsonMembers fuel r).map (fun (ms, rest) => (.obj ms, rest)))
    | '[' :: r =>
      (match skipJsonWS r with
       | ']' :: r' => some (.arr [], r')
       | _ => (parseJsonItems fuel r).map (fun (xs, rest) => (.arr xs, rest)))
    | '"' :: r => (parseJsonString r).map (fun (s, rest) => (.str (String.mk s), rest))
    | 't' :: 'r' :: 'u' :: 'e' :: r => some (.bool true, r)
    | 'f' :: 'a' :: 'l' :: 's' :: 'e' :: r => some (.bool false, r)
    | 'n' :: 'u' :: 'l' :: 'l' :: r => some (.null, r)
    | l' => (parseJsonNumber l').map (fun (lex, rest) => (.num (String.mk lex), rest))

/-- Object members: `"key": value (, "key": value)* }`. -/
def parseJsonMembers : Nat → List Char → Option (List (String × Json) × List Char)
  | 0, _ => none
  | fuel + 1, l =>
    match skipJsonWS l with
    | '"' :: r =>
      (match parseJsonString r with
       | none => none
       | some (k, r₁) =>
         match skipJsonWS r₁ with
         | ':' :: r₂ =>
           (match parseJsonValue fuel r₂ with
            | none => none
            | some (v, r₃) =>
              match skipJsonWS r₃ with
              | ',' :: r₄ =>
                (parseJsonMembers fuel r₄).map
                  (fun (ms, rest) => ((String.mk k, v) :: ms, rest))
              | '}' :: r₄ => some ([(String.mk k, v)], r₄)
              | _ => none)
         | _ => none)
    | _ => none

/-- Array items: `value (, value)* ]`. -/
def parseJsonItems : Nat → List Char → Option (List Json × List Char)
  | 0, _ => none
  | fuel + 1, l =>
    match parseJsonValue fuel l with
    | none => none
    | some (v, r) =>
      match skipJsonWS r with
      | ',' :: r' => (parseJsonItems fuel r').map (fun (xs, rest) => (v :: xs, rest))
      | ']' :: r' => some ([v], r')
      | _ => none

end

/-- `json.loads`: parse one value and require only whitespace after it. -/
def jsonLoads (l : List Char) : Option Json :=
  match parseJsonValue (l.length + 1) l with
  | some (v, rest) => if (skipJsonWS rest).isEmpty then some v else none
  | none => none

/-- Python `dict` lookup on a parsed object's member list: the last binding
of a key wins. -/
def jLookup (key : String) (ms : List (String × Json)) : Option Json :=
  (ms.reverse.find? (fun kv => kv.1 = key)).map Prod.snd

/-- Python `'key' in dict` on a parsed object's member list. -/
def jHasKey (key : String) (ms : List (String × Json)) : Bool :=
  ms.any (fun kv => kv.1 = key)

/-- `json.dumps` escaping of one string character (default `ensure_ascii`
behaviour on the printable-ASCII payloads the claims exercise). -/
def dumpStringChar (c : Char) : List Char :=
  if c = '"' then ['\\', '"']
  else if c = '\\' then ['\\', '\\']
  else if c = '\n' then ['\\', 'n']
  else if c = '\t' then ['\\', 't']
  else if c = '\r' then ['\\', 'r']
  else if c = '\x08' then ['\\', 'b']
  else if c = '\x0c' then ['\\', 'f']
  else [c]

/-- `json.dumps` of a string literal. -/
def dumpStringLit (s : String) : List Char :=
  '"' :: (s.data.flatMap dumpStringChar) ++ ['"']

mutual

/-- `json.dumps` with the default separators `", "` and `": "`. -/
def jDump : Json → List Char
  | .null => "null".data
  | .bool true => "true".data
  | .bool false => "false".data
  | .num lex => lex.data
  | .str s => dumpStringLit s
  | .arr items => '[' :: jDumpItems items ++ [']']
  | .obj ms => '{' :: jDumpMembers ms ++ ['}']

def jDumpItems : List Json → List Char
  | [] => []
  | [x] => jDump x
  | x :: y :: rest => jDump x ++ ", ".data ++ jDumpItems (y :: rest)

def jDumpMembers : List (String × Json) → List Char
  | [] => []
  | [(k, v)] => dumpStringLit k ++ ": ".data ++ jDump v
  | (k, v) :: m :: rest =>
    dumpStringLit k ++ ": ".data ++ jDump v ++ ", ".data ++ jDumpMembers (m :: rest)

end

/-! ## The daily-report collaborator
(`backend/reporting/daily_report_generator.py`)

Dates are modelled as day numbers (`Nat`); `strftime('%Y-%m-%d')` is
modelled by the injective decimal rendering `dayStr`.  The transaction table
behind the `loader` collaborator is an explicit list of
(merchant id, transaction day) pairs; the report's metric/stock/trend fields
are computed by collaborators the spec places out of scope and enter the
model as an opaque member list. -/

/-- Stand-in for `strftime('%Y-%m-%d')` on a day number (injective). -/
def dayStr (d : Nat) : String := toString d

/-- `_find_latest_transaction_date` (daily_report_generator.py lines
26–99): the maximum transaction day of the merchant, `none` when the
merchant has no transactions. -/
def findLatestTransactionDate (txns : List (String × Nat)) (merchantId : String) :
    Option Nat :=
  let mine := (txns.filter (fun t => t.1 = merchantId)).map Prod.snd
  mine.max?

/-- `generate_daily_report` (daily_report_generator.py lines 102–330): the
report is keyed to the *effective* date — the most recent day with
transaction data — regardless of the requested date; when no data exists the
shell carries the requested date, a `null` effective date and an error
field.  `body` abstracts the metric/stock/trend members filled in by the
external collaborators. -/
def generateDailyReport (txns : List (String × Nat))
    (body : String → Nat → List (String × Json))
    (merchantId : String) (requestedDate : Nat) : Json :=
  match findLatestTransactionDate txns merchantId with
  | none =>
    .obj [("report_date", .str (dayStr requestedDate)),
          ("effective_report_date", .null),
          ("error", .str ("No transaction data found for merchant '"
            ++ merchantId ++ "' to generate a report based on activity."))]
  | some d =>
    .obj ([("report_date", .str (dayStr d)),
           ("effective_report_date", .str (dayStr d)),
           ("error", .null)] ++ body merchantId d)

/-! ## The tool dispatcher (`execute_tool_call`, source lines 570–759) -/

/-- Everything external the dispatcher touches: the `exec` semantics for
sandbox snippets, `pd.to_datetime` (`none` models the `ValueError` of an
invalid date string), today's date, the transaction table, the opaque report
body, and the anomaly-scan collaborator. -/
structure ToolEnv where
  exec : ExecOracle
  parseDate : List Char → Option Nat
  today : Nat
  txns : List (String × Nat)
  reportBody : String → Nat → List (String × Json)
  anomalies : String → Json

/-- The dispatcher's failure payload
`f"--- Execution Failed ---\n--- Error Type ---\n{T}\n--- Error Message ---\n{msg}"`. -/
def renderDispatchFailure (errType : String) (msg : List Char) : ToolResult :=
  ⟨true, "--- Execution Failed ---\n--- Error Type ---\n".data ++ errType.data
    ++ "\n--- Error Message ---\n".data ++ msg⟩

/-- Generic `re.search` driver for an argument pattern that starts with a
literal name: try the tail at each successive case-insensitive occurrence of
the name; the leftmost success wins. -/
def argSearch {α : Type} (name : List Char) (tailMatch : List Char → Option α) :
    List Char → Option α
  | [] => none
  | c :: rest =>
    if isPrefixOfCI name (c :: rest) then
      match tailMatch ((c :: rest).drop name.length) with
      | some v => some v
      | none => argSearch name tailMatch rest
    else argSearch name tailMatch rest

/-- Tail of `name\s*=\s*['\"]([^'\"]*)['\"]` after the literal name: the
content is a maximal run of non-quote characters that must be followed by a
quote (of either kind — the pattern uses a character class, not a
backreference). -/
def simpleQuotedTail (l : List Char) : Option (List Char) :=
  match l.dropWhile isPyWS with
  | '=' :: afterEq =>
    (match afterEq.dropWhile isPyWS with
     | q :: content =>
       if q = '\'' ∨ q = '"' then
         let body := content.takeWhile (fun c => ¬ (c = '\'' ∨ c = '"'))
         match content.drop body.length with
         | _ :: _ => some body
         | [] => none
       else none
     | [] => none)
  | _ => none

/-- `re.search(r"name\s*=\s*['\"]([^'\"]*)['\"]", params, re.IGNORECASE)`,
used for `chart_type`, `title`, `x_label`, `y_label` (source lines
672–675). -/
def simpleQuotedArg (name : String) (params : List Char) : Option (List Char) :=
  argSearch name.data simpleQuotedTail params

/-- Tail of the `chart_data` start pattern `chart_data\s*=\s*(['\"])`:
capture the opening quote character and the suffix after it. -/
def chartDataStartTail (l : List Char) : Option (Char × List Char) :=
  match l.dropWhile isPyWS with
  | '=' :: afterEq =>
    (match afterEq.dropWhile isPyWS with
     | q :: suffix => if q = '\'' ∨ q = '"' then some (q, suffix) else none
     | [] => none)
  | _ => none

/-- The manual closing-quote loop of source lines 689–698: the first
occurrence of the opening quote character not immediately preceded by a
backslash; `prev` is the character before the current suffix. -/
def chartDataScan (q : Char) (prev : Char) : List Char → Option (List Char)
  | [] => none
  | c :: rest =>
    if c = q ∧ prev ≠ '\\' then some []
    else (chartDataScan q c rest).map (c :: ·)

/-- The regex fallback of source lines 704–706: the first occurrence of the
quote followed by optional whitespace and then a comma or the end of the
parameter block. -/
def chartDataEndPatScan (q : Char) : List Char → Option (List Char)
  | [] => none
  | c :: rest =>
    if c = q ∧ ((match rest.dropWhile isPyWS with
                | [] => true
                | ',' :: _ => true
                | _ => false) : Bool) = true then some []
    else (chartDataEndPatScan q rest).map (c :: ·)

/-- The full `chart_data` extraction of source lines 682–717: locate
`chart_data\s*=\s*(['\"])`, run the escape-aware quote scan, fall back to
the endswith test and then to the end-pattern regex, require a non-empty
content (`end_index > start_index`), and undo the `\q` and `\\` escapes. -/
def chartDataExtract (params : List Char) : Option (List Char) :=
  match argSearch "chart_data".data chartDataStartTail params with
  | none => none
  | some (q, suffix) =>
    let raw? :=
      match chartDataScan q q suffix with
      | some content => some content
      | none =>
        if suffix.getLast? = some q then some suffix.dropLast
        else chartDataEndPatScan q suffix
    match raw? with
    | none => none
    | some content =>
      if content.isEmpty then none
      else some (pyReplace ['\\', '\\'] ['\\'] (pyReplace ['\\', q] [q] content))

/-- Shape check of source line 734: a parsed `chart_data` must be an object
holding `labels` together with `data` or `datasets`. -/
def chartDataShapeOK : Json → Bool
  | .obj ms => jHasKey "labels" ms && (jHasKey "data" ms || jHasKey "datasets" ms)
  | _ => false

/-- The ChartCommand payload of source lines 740–746: the validated data
wrapped with the requested type and display options (`title or "Sales
Data"`, optional axis labels serialized as `null` when absent). -/
def mkChartCommand (chartType : List Char) (chartObj : Json)
    (title? xLabel? yLabel? : Option (List Char)) : Json :=
  .obj [("type", .str "chart"),
        ("payload", .obj
          [("chart_type", .str (String.mk chartType)),
           ("chart_data", chartObj),
           ("options", .obj
             [("title", .str (match title? with
                | some t => if t.isEmpty then "Sales Data" else String.mk t
                | none => "Sales Data")),
              ("x_label", match xLabel? with
                | some x => .str (String.mk x) | none => .null),
              ("y_label", match yLabel? with
                | some y => .str (String.mk y) | none => .null)])])]

/-- The `display_chart` branch of `execute_tool_call` (source lines
662–748): extract the arguments, validate the type and the payload shape,
and either return the serialized ChartCommand or a `ParameterError`
failure. -/
def displayChartHandler (params : List Char) : ToolResult :=
  let chartType? := simpleQuotedArg "chart_type" params
  let title? := simpleQuotedArg "title" params
  let xLabel? := simpleQuotedArg "x_label" params
  let yLabel? := simpleQuotedArg "y_label" params
  let chartData? := chartDataExtract params
  let typeMissing : Bool := match chartType? with | none => true | some t => t.isEmpty
  if typeMissing ∨ chartData?.isNone then
    renderDispatchFailure "ParameterError"
      ("display_chart: Missing required 'chart_type' or could not extract 'chart_data'. Params: '".data
        ++ pyTake 100 params ++ "...".data ++ params.drop (params.length - 100) ++ "'".data)
  else
    let chartType := chartType?.getD []
    let chartDataStr := chartData?.getD []
    if ¬ (chartType = "line".data ∨ chartType = "bar".data) then
      renderDispatchFailure "ParameterError"
        ("display_chart: Unsupported chart_type '".data ++ chartType
          ++ "'. Only 'bar' is supported.".data)
    else
      match jsonLoads chartDataStr with
      | some chartObj =>
        if chartDataShapeOK chartObj then
          ⟨false, jDump (mkChartCommand chartType chartObj title? xLabel? yLabel?)⟩
        else
          renderDispatchFailure "ParameterError"
            ("display_chart: Invalid JSON in 'chart_data': ".data
              ++ "chart_data JSON structure invalid (missing labels/data or labels/datasets)".data
              ++ ". Received: '".data ++ pyTake 100 chartDataStr ++ "...".data
              ++ chartDataStr.drop (chartDataStr.length - 100) ++ "'".data)
      | none =>
        renderDispatchFailure "ParameterError"
          ("display_chart: Invalid JSON in 'chart_data': JSONDecodeError. Received: '".data
            ++ pyTake 100 chartDataStr ++ "...".data
            ++ chartDataStr.drop (chartDataStr.length - 100) ++ "'".data)

/-- The `get_daily_report` argument regex of source line 641:
`report_date\s*=\s*(['\"])(.*?)\1` — a lazy group up to the first repeat of
the captured quote character (no escape handling here). -/
def reportDateArgTail (l : List Char) : Option (List Char) :=
  match l.dropWhile isPyWS with
  | '=' :: afterEq =>
    (match afterEq.dropWhile isPyWS with
     | q :: suffix =>
       if q = '\'' ∨ q = '"' then
         (match suffix.findIdx? (· = q) with
          | some i => some (suffix.take i)
          | none => none)
       else none
     | [] => none)
  | _ => none

/-- Source lines 640–650: default the report date to yesterday, accept a
parsed date only when it is not in the future, and fall back to yesterday on
an invalid or future date. -/
def dailyReportRequestedDate (env : ToolEnv) (params : List Char) : Nat :=
  let yesterday := env.today - 1
  match argSearch "report_date".data reportDateArgTail params with
  | none => yesterday
  | some s =>
    match env.parseDate s with
    | some d => if d ≤ env.today then d else yesterday
    | none => yesterday

/-- `execute_tool_call` (source lines 570–759): strip, extract the function
name, isolate the outer parenthesis pair, and dispatch to the tool
handlers. -/
def executeToolCall (env : ToolEnv) (merchantId : String)
    (callFunctionStr : List Char) : ToolResult :=
  let s := pyStrip callFunctionStr
  match matchFuncName s with
  | none =>
    renderDispatchFailure "FormatError"
      ("Could not extract function name from: '".data ++ pyTake 100 s ++ "...'".data)
  | some funcName =>
    match pyFind '(' s funcName.length, pyRFind ')' s with
    | some openIdx, some closeIdx =>
      if closeIdx < openIdx then
        renderDispatchFailure "FormatError"
          ("Mismatched or missing parentheses in tool call: '".data
            ++ pyTake 100 s ++ "...".data ++ s.drop (s.length - 100) ++ "'".data)
      else
        let params := pyStrip (pySlice s openIdx closeIdx)
        if funcName = "run_code".data then
          match runCodeArgOfParams params with
          | some code => runCode env.exec code [("get_user_id", .closure merchantId)]
          | none =>
            if (codeStringExtract params).isSome then
              renderDispatchFailure "ParameterError"
                "run_code: Extracted code_string is empty after processing.".data
            else
              renderDispatchFailure "ParameterError"
                ("run_code: Missing or malformed 'code_string'. Could not find quoted string in params: '".data
                  ++ pyTake 200 params ++ "...'".data)
        else if funcName = "get_daily_report".data then
          ⟨false, jDump (generateDailyReport env.txns env.reportBody merchantId
            (dailyReportRequestedDate env params))⟩
        else if funcName = "check_for_anomalies".data then
          ⟨false, jDump (env.anomalies merchantId)⟩
        else if funcName = "display_chart".data then
          displayChartHandler params
        else
          renderDispatchFailure "ToolNotFound"
            ("Unknown function tool called: '".data ++ funcName ++ "'".data)
    | _, _ =>
      renderDispatchFailure "FormatError"
        ("Mismatched or missing parentheses in tool call: '".data
          ++ pyTake 100 s ++ "...".data ++ s.drop (s.length - 100) ++ "'".data)

/-! ## The conversation driver (`process_merchant_question`, source lines 31–222)

The driver builds a prompt (whose text influences only the model, not the
driver's own control flow), calls the text-generation collaborator, parses
the response, and branches.  The collaborator is abstracted as a per-turn
oracle returning either raw text or a raised service fault
(`except Exception` of source lines 106–112).  The write-only
`conversation_history` list is not modelled; `provided_data` and
`current_thinking` are threaded exactly as in the source.  The driver is
instrumented to also report how many loop iterations were entered. -/

def MAX_TURNS : Nat := 10

/-- Per-turn behaviour of `gemini_service.generate_text`: raw text, or a
raised service-level fault with its message. -/
def ResponseOracle := Nat → Except (List Char) (List Char)

structure DriverEnv where
  tools : ToolEnv
  responses : ResponseOracle

/-- Source line 155: `isinstance(obj, dict) and obj.get("type") == "chart"`. -/
def isChartTyped : Json → Bool
  | .obj ms =>
    (match jLookup "type" ms with
     | some (.str s) => s = "chart"
     | _ => false)
  | _ => false

/-- `re.match(r"^\s*([a-zA-Z_][a-zA-Z0-9_]*)\s*\(", s)` of source lines
143/186: an identifier that must be followed by an opening parenthesis. -/
def matchFuncNameParen (l : List Char) : Option (List Char) :=
  match matchFuncName l with
  | none => none
  | some ident =>
    match ((l.dropWhile isPyWS).drop ident.length).dropWhile isPyWS with
    | '(' :: _ => some ident
    | _ => none

/-- One driver loop iteration and its successors (source lines 70–222),
structured over the remaining turn budget; returns the final response object
(the dictionary passed to `json.dumps`) together with the number of loop
iterations entered. -/
def driverStep (env : DriverEnv) (merchantId : String) :
    Nat → Nat → List Char → List Char → (Json × Nat)
  | 0, _, thinking, _ =>
    -- Loop exhausted (source lines 219–222): the "stuck" response.
    (.obj [("answer", .str (String.mk ("Sorry, I got stuck processing that. Last thought: ".data
      ++ thinking)))], 0)
  | fuel + 1, turn, _thinking, _provided =>
    match env.responses turn with
    | .error e =>
      -- Source lines 106–112: a raised service fault is immediately fatal.
      (.obj [("answer", .str (String.mk ("Sorry, error reaching AI service: ".data ++ e)))], 1)
    | .ok raw =>
      let pr := parseResponse raw
      let thinking' := pr.thinking
      match pr.answerText, pr.callText with
      | some ans, some call =>
        -- Source lines 138–175: ANSWER and CALL_FUNCTION both present.
        if matchFuncNameParen call = some "display_chart".data then
          let r := executeToolCall env.tools merchantId call
          match jsonLoads r.text with
          | some cmd =>
            if isChartTyped cmd then
              (.obj [("answer", .str (String.mk ans)), ("chart_command", cmd)], 1)
            else
              (.obj [("answer", .str (String.mk (ans
                ++ "\n\n[Chart display failed: Invalid command format]".data)))], 1)
          | none =>
            (.obj [("answer", .str (String.mk (ans
              ++ "\n\n[Chart display failed: Command parse error]".data)))], 1)
        else
          (.obj [("answer", .str (String.mk ans))], 1)
      | some ans, none =>
        -- Source lines 177–181: ANSWER only.
        (.obj [("answer", .str (String.mk ans))], 1)
      | none, some call =>
        -- Source lines 183–209: CALL_FUNCTION only; the result (success or
        -- failure alike) becomes the next turn's provided data.
        let r := executeToolCall env.tools merchantId call
        let next := driverStep env merchantId fuel (turn + 1) thinking' r.text
        (next.1, next.2 + 1)
      | none, none =>
        -- Source lines 211–216: ambiguous response.
        (.obj [("answer", .str (String.mk ("Thinking: ".data ++ thinking'
          ++ "\n(Couldn't determine next step...)".data)))], 1)

/-- `process_merchant_question` (source lines 31–222): run the loop from
turn 0 with the initial thinking/provided-data values of source lines
46–47. -/
def processMerchantQuestion (env : DriverEnv) (merchantId : String) : Json × Nat :=
  driverStep env merchantId MAX_TURNS 0 "No thinking yet.".data
    "Initial state. No data provided yet.".data

/-- The serialized return value of `process_merchant_question`
(every `return` in the source is a `json.dumps` of a dictionary). -/
def processMerchantQuestionText (env : DriverEnv) (merchantId : String) : List Char :=
  jDump (processMerchantQuestion env merchantId).1

/-! ## Auxiliary definitions for the claim statements -/

/-- The fixed failure marker the driver tests for (source line 198). -/
def failMarker : List Char := "Execution Failed".data

/-- All names visible to a snippet at the start of a `run_code` call: the
keys of the fresh globals dictionary together with the keys of the curated
`__builtins__` mapping it contains. -/
def sandboxNamespaceNames (userCtx : Namespace) : List String :=
  (sandboxGlobals userCtx).map Prod.fst ++ sandboxBuiltins.map Prod.fst

/-- Modelled from the spec: names that, when bound in a snippet's namespace,
let it "open files, spawn processes, or reach the network" — the direct
ambient-capability builtins (`open`, `exec`, `eval`, `compile`, `input`) and
`__import__`, Python's universal import hook, through which `os`,
`subprocess` and `socket` (file-system, process and network capability) are
all reachable. -/
def spec_ambientCapabilityNames : List String :=
  ["open", "exec", "eval", "compile", "input", "__import__"]

/-- The per-call user context `execute_tool_call` hands to `run_code`
(source line 633: `{'get_user_id': get_user_id_func}`). -/
def runCodeUserCtx (merchantId : String) : Namespace :=
  [("get_user_id", .closure merchantId)]

/-- Case-insensitive compatibility of a suffix with a marker: the marker
matches here, or this suffix is a proper CI-prefix of the marker (so an
occurrence could straddle into whatever follows). -/
def compatCI (pat x : List Char) : Bool :=
  isPrefixOfCI pat x || (lowerStr x).isPrefixOf (lowerStr pat)

/-- No occurrence of `pat` starts anywhere inside `x`, whatever text
follows `x`. -/
def sealedFor (pat x : List Char) : Bool :=
  (List.range x.length).all (fun i => ! compatCI pat (x.drop i))

/-- `x` is free of (even partial, boundary-straddling) occurrences of all
three response markers. -/
def markerSealed (x : List Char) : Bool :=
  sealedFor answerMarker x && sealedFor callMarker x && sealedFor thinkingMarker x

/-- Well-formedness of a single-quoted tool-call argument value: every
backslash starts one of the modelled escape sequences and every quote
character is escaped. -/
def escWF : List Char → Bool
  | [] => true
  | ['\\'] => false
  | '\\' :: c :: rest => (simpleEscape c).isSome && escWF rest
  | c :: rest => decide (c ≠ '\'') && escWF rest

/-- The claim's unescaping map: each escape sequence replaced by its literal
character (`\n` → newline, `\t` → tab, `\'` → quote, …), everything else
kept. -/
def decodeEscapes : List Char → List Char
  | [] => []
  | ['\\'] => ['\\']
  | '\\' :: c :: rest =>
    (match simpleEscape c with
     | some e => e :: decodeEscapes rest
     | none => '\\' :: c :: decodeEscapes rest)
  | c :: rest => c :: decodeEscapes rest

/-- A turn whose response parses to a tool call and no answer (the branch of
source lines 183–209, which always continues the loop). -/
def CallOnlyTurn (env : DriverEnv) (t : Nat) : Prop :=
  ∃ raw, env.responses t = .ok raw ∧
    (parseResponse raw).answerText = none ∧
    (parseResponse raw).callText.isSome = true

/-- The thinking trace the driver would hold after parsing turn `t`
(`default` when that turn's model call raised). -/
def respThinking (env : DriverEnv) (t : Nat) (default : List Char) : List Char :=
  match env.responses t with
  | .ok raw => (parseResponse raw).thinking
  | .error _ => default

/-- The "stuck" response of source line 222. -/
def stuckAnswer (thinking : List Char) : Json :=
  .obj [("answer", .str (String.mk
    ("Sorry, I got stuck processing that. Last thought: ".data ++ thinking)))]

/-- The fatal service-error response of source line 112. -/
def serviceErrorAnswer (e : List Char) : Json :=
  .obj [("answer", .str (String.mk ("Sorry, error reaching AI service: ".data ++ e)))]

/-- A terminal driver response supplied by the model rather than by a fatal
condition: the turn's parse carried an `ANSWER:` payload and the returned
object's `answer` member is that payload plus a (possibly empty) fallback
suffix (source lines 138–181), or the parse carried neither marker and the
returned object is the ambiguous echo of the thinking trace (source line
216). -/
def ModelTermination (pr : ParsedResponse) (j : Json) : Prop :=
  (∃ ans suffix rest, pr.answerText = some ans ∧
    j = .obj (("answer", .str (String.mk (ans ++ suffix))) :: rest)) ∨
  (pr.answerText = none ∧ pr.callText = none ∧
    j = .obj [("answer", .str (String.mk ("Thinking: ".data ++ pr.thinking
      ++ "\n(Couldn't determine next step...)".data)))])

/-- The payload-shape condition of the claim on `display_chart`: the
argument parses to a JSON object containing `labels` together with `data`
or `datasets`. -/
def chartDataShapeSpec (cd : List Char) : Prop :=
  ∃ ms, jsonLoads cd = some (.obj ms) ∧ jHasKey "labels" ms = true ∧
    (jHasKey "data" ms = true ∨ jHasKey "datasets" ms = true)

/-! ### Concrete scenario environments used by the witnesses

The exec oracle records what Python's `exec` does on the specific snippets
the witnesses feed it: `print(1+1)` prints `2`, a snippet that prints the
literal failure marker prints it, and anything else (such as the bare
expression `x`) raises a `NameError`. -/

def witnessExecOracle : ExecOracle := fun code g l =>
  if code = "print(1+1)".data then ⟨g, l, "2\n".data, [], none⟩
  else if code = "print('Execution Failed')".data then
    ⟨g, l, "Execution Failed\n".data, [], none⟩
  else ⟨g, l, [], [], some ("NameError", "name 'x' is not defined".data)⟩

def witnessToolEnv : ToolEnv :=
  { exec := witnessExecOracle
    parseDate := fun s => if s = "2031-01-01".data then some 200 else none
    today := 100
    txns := [("M1", 95), ("M1", 97), ("M2", 99)]
    reportBody := fun _ _ => []
    anomalies := fun _ => .arr [] }

/-- A model turn carrying only a failing `run_code` call. -/
def witnessFailTurn : List Char :=
  "Thinking: t\nCALL_FUNCTION: run_code(code_string='x')".data

/-- Driver environment in which every turn yields only a failing tool
call. -/
def witnessDriverEnvStuck : DriverEnv :=
  { tools := witnessToolEnv, responses := fun _ => .ok witnessFailTurn }

/-- Driver environment whose first turn is a failing tool call with thinking
`XYZQ` and whose second model call raises a service fault. -/
def witnessDriverEnvError : DriverEnv :=
  { tools := witnessToolEnv
    responses := fun t =>
      if t = 0 then .ok "Thinking: XYZQ\nCALL_FUNCTION: run_code(code_string='x')".data
      else .error "boom".data }

/-! ## Support lemmas: stripping, containment, scanning -/

theorem lowerStr_append (x y : List Char) :
    lowerStr (x ++ y) = lowerStr x ++ lowerStr y :=
  List.map_append _ _ _

theorem isPrefixOfCI_append_self (x y : List Char) :
    isPrefixOfCI x (x ++ y) = true := by
  rw [isPrefixOfCI, lowerStr_append, List.isPrefixOf_iff_prefix]
  exact List.prefix_append _ _

theorem sealedFor_no_occurrence {pat x : List Char} (h : sealedFor pat x = true)
    (y : List Char) {i : Nat} (hi : i < x.length) :
    isPrefixOfCI pat ((x ++ y).drop i) = false := by
  have hcompat : compatCI pat (x.drop i) = false := by
    have := (List.all_eq_true.mp h) i (List.mem_range.mpr hi)
    simpa using this
  have h₁ : isPrefixOfCI pat (x.drop i) = false := by
    rcases Bool.or_eq_false_iff.mp hcompat with ⟨h₁, _⟩
    exact h₁
  have h₂ : (lowerStr (x.drop i)).isPrefixOf (lowerStr pat) = false := by
    rcases Bool.or_eq_false_iff.mp hcompat with ⟨_, h₂⟩
    exact h₂
  rw [List.drop_append_of_le_length (Nat.le_of_lt hi)]
  by_contra hcon
  have htrue : isPrefixOfCI pat (x.drop i ++ y) = true := by
    cases hb : isPrefixOfCI pat (x.drop i ++ y) with
    | true => rfl
    | false => exact absurd hb hcon
  rw [isPrefixOfCI, lowerStr_append, List.isPrefixOf_iff_prefix] at htrue
  rcases Nat.le_total (lowerStr pat).length (lowerStr (x.drop i)).length with hle | hle
  · have hpre : lowerStr pat <+: lowerStr (x.drop i) :=
      List.prefix_of_prefix_length_le htrue (List.prefix_append _ _) hle
    have : isPrefixOfCI pat (x.drop i) = true := by
      rw [isPrefixOfCI, List.isPrefixOf_iff_prefix]; exact hpre
    exact absurd this (by simp [h₁])
  · have : lowerStr (x.drop i) <+: lowerStr pat :=
      List.prefix_of_prefix_length_le (List.prefix_append _ _) htrue hle
    rw [← List.isPrefixOf_iff_prefix] at this
    exact absurd this (by simp [h₂])

theorem firstMatchPos_append {pat : List Char} (x y : List Char)
    (h : ∀ i, i < x.length → isPrefixOfCI pat ((x ++ y).drop i) = false) :
    firstMatchPos pat (x ++ y) = (firstMatchPos pat y).map (· + x.length) := by
  induction x with
  | nil =>
    simp only [List.nil_append, List.length_nil]
    cases firstMatchPos pat y <;> simp
  | cons c rest ih =>
    have h0 : isPrefixOfCI pat (c :: (rest ++ y)) = false := by
      have := h 0 (by simp)
      simpa using this
    rw [List.cons_append, firstMatchPos, if_neg (by simp [h0])]
    rw [ih (fun i hi => by
      have := h (i + 1) (by simpa using Nat.succ_lt_succ hi)
      simpa using this)]
    cases firstMatchPos pat y <;> simp [Nat.add_assoc, Nat.add_comm 1]

theorem stopsAt_of_stop_head {stops : List (List Char)} {M : List Char}
    (z : List Char) (hM : M ∈ stops) (hne : M ≠ []) :
    stopsAt stops (M ++ z) = true := by
  cases M with
  | nil => exact absurd rfl hne
  | cons m mrest =>
    have : isPrefixOfCI (m :: mrest) ((m :: mrest) ++ z) = true :=
      isPrefixOfCI_append_self _ _
    simp only [List.cons_append, stopsAt, Bool.or_eq_true, List.any_eq_true]
    right
    exact ⟨m :: mrest, hM, by simpa using this⟩

theorem stopsAt_false_inside {stops : List (List Char)} {x : List Char} (y : List Char)
    (hs : ∀ s ∈ stops, sealedFor s x = true) (hy : y ≠ []) {i : Nat} (hi : i < x.length) :
    stopsAt stops ((x ++ y).drop i) = false := by
  rw [List.drop_append_of_le_length (Nat.le_of_lt hi)]
  cases hd : x.drop i with
  | nil =>
    have : x.length - i = 0 := by
      have := congrArg List.length hd
      simpa using this
    omega
  | cons c rest =>
    simp only [List.cons_append, stopsAt, Bool.or_eq_false_iff]
    constructor
    · cases hrest : rest ++ y with
      | nil =>
        rcases List.append_eq_nil.mp hrest with ⟨_, hy'⟩
        exact absurd hy' hy
      | cons _ _ => simp
    · rw [List.any_eq_false]
      intro s hsmem
      have hseal := hs s hsmem
      have := sealedFor_no_occurrence hseal y (i := i) hi
      rw [List.drop_append_of_le_length (Nat.le_of_lt hi), hd] at this
      simpa using this

theorem lazyStop_append {stops : List (List Char)} (x y : List Char)
    (h : ∀ i, i < x.length → stopsAt stops ((x ++ y).drop i) = false) :
    lazyStop stops (x ++ y) = x.length + lazyStop stops y := by
  induction x with
  | nil => simp
  | cons c rest ih =>
    have h0 : stopsAt stops (c :: (rest ++ y)) = false := by
      have := h 0 (by simp)
      simpa using this
    rw [List.cons_append, lazyStop, if_neg (by simp [h0])]
    rw [ih (fun i hi => by
      have := h (i + 1) (by simpa using Nat.succ_lt_succ hi)
      simpa using this)]
    simp [Nat.add_assoc, Nat.add_comm 1]

theorem lazyStop_no_stops {stops : List (List Char)} (x : List Char)
    (h : ∀ i, i < x.length → ∀ s ∈ stops, isPrefixOfCI s (x.drop i) = false) :
    lazyStop stops x = x.length ∨
      (x.getLast? = some '\n' ∧ lazyStop stops x = x.length - 1) := by
  induction x with
  | nil => left; rfl
  | cons c rest ih =>
    have hany : stops.any (fun s => isPrefixOfCI s (c :: rest)) = false := by
      rw [List.any_eq_false]
      intro s hsmem
      have := h 0 (by simp) s hsmem
      simpa using this
    by_cases hnl : c = '\n' ∧ rest = []
    · right
      rcases hnl with ⟨hc, hr⟩
      subst hc; subst hr
      constructor
      · rfl
      · simp [lazyStop, stopsAt]
    · have hstop : stopsAt stops (c :: rest) = false := by
        simp only [stopsAt, Bool.or_eq_false_iff]
        refine ⟨?_, hany⟩
        by_cases hc : c = '\n'
        · cases hr : rest with
          | nil => exact absurd ⟨hc, hr⟩ hnl
          | cons _ _ => simp
        · simp [hc]
      rw [lazyStop, if_neg (by simp [hstop])]
      rcases ih (fun i hi s hsmem => by
        have := h (i + 1) (by simpa using Nat.succ_lt_succ hi) s hsmem
        simpa using this) with heq | ⟨hlast, heq⟩
      · left; simp [heq]
      · right
        have hrne : rest ≠ [] := by
          intro hr; rw [hr] at hlast; simp at hlast
        constructor
        · cases hr : rest with
          | nil => exact absurd hr hrne
          | cons a t =>
            rw [hr] at hlast
            simpa [List.getLast?_cons_cons] using hlast
        · have : 0 < rest.length := List.length_pos.mpr hrne
          simp only [heq, List.length_cons]
          omega

theorem containsSub_of_isPrefixOf {sub l : List Char} (h : sub.isPrefixOf l = true) :
    containsSub sub l = true := by
  cases l with
  | nil => simpa [containsSub] using h
  | cons c rest => simp [containsSub, h]

theorem containsSub_append_right {sub : List Char} (x : List Char) {y : List Char}
    (h : containsSub sub y = true) : containsSub sub (x ++ y) = true := by
  induction x with
  | nil => simpa using h
  | cons c rest ih => simp [containsSub, ih]

theorem containsSub_middle (x sub y : List Char) :
    containsSub sub (x ++ (sub ++ y)) = true := by
  apply containsSub_append_right
  apply containsSub_of_isPrefixOf
  rw [List.isPrefixOf_iff_prefix]
  exact List.prefix_append _ _

theorem stripLeft_cons_not_ws {c : Char} (l : List Char) (hc : isPyWS c = false) :
    stripLeft (c :: l) = c :: l := by
  simp [stripLeft, List.dropWhile_cons, hc]

theorem stripRight_concat_ws {x : List Char} {c : Char} (hc : isPyWS c = true) :
    stripRight (x ++ [c]) = stripRight x := by
  simp [stripRight, List.reverse_append, List.dropWhile_cons, hc]

theorem stripRight_cons_ne_nil {c : Char} (l : List Char) (hc : isPyWS c = false) :
    stripRight (c :: l) ≠ [] := by
  have : (c :: l).reverse = l.reverse ++ [c] := by simp
  rw [stripRight, this, List.dropWhile_append]
  by_cases he : (List.dropWhile isPyWS l.reverse).isEmpty
  · simp [he, List.dropWhile_cons, hc]
  · simp [he]

theorem stripRight_append_of_ne_nil (x : List Char) {y : List Char}
    (hy : stripRight y ≠ []) : stripRight (x ++ y) = x ++ stripRight y := by
  have hne : (List.dropWhile isPyWS y.reverse).isEmpty = false := by
    cases hd : (List.dropWhile isPyWS y.reverse).isEmpty
    · rfl
    · exfalso
      apply hy
      rw [stripRight, List.isEmpty_iff.mp hd]
      rfl
  rw [stripRight, List.reverse_append, List.dropWhile_append, hne]
  simp [stripRight]

theorem pyStrip_concat_ws {x : List Char} {c : Char} (hc : isPyWS c = true) :
    pyStrip (x ++ [c]) = pyStrip x := by
  rw [pyStrip, pyStrip, stripLeft, stripLeft, List.dropWhile_append]
  by_cases he : (List.dropWhile isPyWS x).isEmpty
  · have hx : List.dropWhile isPyWS x = [] := List.isEmpty_iff.mp he
    simp [he, hx, List.dropWhile_cons, hc, stripRight]
  · simp only [he, if_false]
    exact stripRight_concat_ws hc

theorem pyStrip_dropLast_newline {x : List Char} (h : x.getLast? = some '\n') :
    pyStrip x.dropLast = pyStrip x := by
  have hx : x.dropLast ++ ['\n'] = x := List.dropLast_append_getLast? _ h
  conv_rhs => rw [← hx]
  rw [pyStrip_concat_ws (by decide)]

theorem take_lazyStop_pyStrip {stops : List (List Char)} (x : List Char)
    (h : ∀ i, i < x.length → ∀ s ∈ stops, isPrefixOfCI s (x.drop i) = false) :
    pyStrip (x.take (lazyStop stops x)) = pyStrip x := by
  rcases lazyStop_no_stops x h with heq | ⟨hlast, heq⟩
  · rw [heq, List.take_length]
  · rw [heq]
    have hne : x ≠ [] := by
      intro hx; rw [hx] at hlast; simp at hlast
    have hx : x.dropLast ++ [x.getLast hne] = x := List.dropLast_append_getLast hne
    have htake : x.take (x.length - 1) = x.dropLast := by
      have h1 : x.length - 1 = x.dropLast.length := by
        rw [List.length_dropLast]
      rw [h1]
      calc x.take x.dropLast.length
          = (x.dropLast ++ [x.getLast hne]).take x.dropLast.length := by rw [hx]
        _ = x.dropLast := List.take_left _ _
    rw [htake, pyStrip_dropLast_newline hlast]

theorem pyStrip_eq_nil_imp {l : List Char} (h : pyStrip l = []) :
    ∀ c ∈ l, isPyWS c = true := by
  intro c hc
  have hsplit : l.takeWhile isPyWS ++ l.dropWhile isPyWS = l :=
    List.takeWhile_append_dropWhile isPyWS l
  rw [← hsplit] at hc
  rcases List.mem_append.mp hc with hmem | hmem
  · exact List.mem_takeWhile_imp hmem
  · have hall : ∀ c' ∈ stripLeft l, isPyWS c' = true := by
      intro c' hc'
      have : c' ∈ (stripLeft l).reverse := List.mem_reverse.mpr hc'
      have hnil : List.dropWhile isPyWS (stripLeft l).reverse = [] := by
        have : stripRight (stripLeft l) = [] := h
        rw [stripRight] at this
        have := congrArg List.reverse this
        simpa using this
      by_contra hcon
      have := List.dropWhile_eq_nil_iff.mp hnil c' this
      simp [hcon] at this
    exact hall c hmem

theorem pyStrip_ne_nil_of_mem {l : List Char} {c : Char} (hm : c ∈ l)
    (hw : isPyWS c = false) : pyStrip l ≠ [] := by
  intro h
  have := pyStrip_eq_nil_imp h c hm
  simp [hw] at this

theorem sealedFor_iff {pat x : List Char} :
    sealedFor pat x = true ↔ ∀ i, i < x.length → compatCI pat (x.drop i) = false := by
  rw [sealedFor, List.all_eq_true]
  constructor
  · intro h i hi
    have := h i (List.mem_range.mpr hi)
    simpa using this
  · intro h i hi
    have := h i (List.mem_range.mp hi)
    simpa using this

theorem sealedFor_append {pat x y : List Char} (hx : sealedFor pat x = true)
    (hy : sealedFor pat y = true) : sealedFor pat (x ++ y) = true := by
  rw [sealedFor_iff]
  intro i hi
  by_cases hix : i < x.length
  · rw [List.drop_append_of_le_length (Nat.le_of_lt hix)]
    have hcx := sealedFor_iff.mp hx i hix
    rcases Bool.or_eq_false_iff.mp hcx with ⟨h₁, h₂⟩
    rw [compatCI, Bool.or_eq_false_iff]
    constructor
    · have := sealedFor_no_occurrence hx y hix
      rwa [List.drop_append_of_le_length (Nat.le_of_lt hix)] at this
    · cases hb : (lowerStr (x.drop i ++ y)).isPrefixOf (lowerStr pat) with
      | false => rfl
      | true =>
        exfalso
        rw [List.isPrefixOf_iff_prefix, lowerStr_append] at hb
        have hsub : lowerStr (x.drop i) <+: lowerStr pat :=
          (List.prefix_append _ _).trans hb
        rw [← List.isPrefixOf_iff_prefix] at hsub
        simp [hsub] at h₂
  · have hxle : x.length ≤ i := Nat.le_of_not_lt hix
    have hdrop : (x ++ y).drop i = y.drop (i - x.length) := by
      conv_lhs => rw [show i = x.length + (i - x.length) from by omega]
      exact List.drop_append _
    rw [hdrop]
    apply sealedFor_iff.mp hy
    have := List.length_append x y ▸ hi
    omega

theorem firstMatchPos_self {pat rest : List Char} (hne : pat ≠ []) :
    firstMatchPos pat (pat ++ rest) = some 0 := by
  cases hp : pat with
  | nil => exact absurd hp hne
  | cons c p' =>
    rw [List.cons_append, firstMatchPos, if_pos]
    have := isPrefixOfCI_append_self (c :: p') rest
    rw [← hp, ← List.cons_append, ← hp]
    exact hp ▸ this

/-- A marker search over `prefix ++ marker ++ payload ++ stopMarker ++ rest`,
where the prefix is sealed for the marker and the payload for all stops:
the match anchors right after the prefix and the payload group is exact. -/
theorem markerSearch_middle {marker : List Char} {stops : List (List Char)}
    (t a : List Char) {M : List Char} (rest : List Char)
    (hsealT : sealedFor marker t = true) (hne : marker ≠ [])
    (hsealA : ∀ s ∈ stops, sealedFor s a = true)
    (hM : M ∈ stops) (hMne : M ≠ []) :
    markerSearch marker stops (t ++ (marker ++ (a ++ (M ++ rest)))) =
      some ⟨t.length, a⟩ := by
  have hfirst : firstMatchPos marker (t ++ (marker ++ (a ++ (M ++ rest)))) =
      some t.length := by
    rw [firstMatchPos_append t _ (fun i hi => sealedFor_no_occurrence hsealT _ hi),
      firstMatchPos_self hne]
    simp
  have hdrop : (t ++ (marker ++ (a ++ (M ++ rest)))).drop (t.length + marker.length) =
      a ++ (M ++ rest) := by
    rw [show t ++ (marker ++ (a ++ (M ++ rest))) = (t ++ marker) ++ (a ++ (M ++ rest))
        from by simp, show t.length + marker.length = (t ++ marker).length from by simp,
      List.drop_left]
  rw [markerSearch, hfirst]
  dsimp only
  rw [hdrop]
  have hlazy : lazyStop stops (a ++ (M ++ rest)) = a.length := by
    rw [lazyStop_append a _ (fun i hi =>
      stopsAt_false_inside (M ++ rest) hsealA (by
        intro hc
        rcases List.append_eq_nil.mp hc with ⟨hM0, _⟩
        exact hMne hM0) hi)]
    have h0 : lazyStop stops (M ++ rest) = 0 := by
      cases hMc : M with
      | nil => exact absurd hMc hMne
      | cons m mr =>
        rw [List.cons_append, lazyStop, if_pos]
        have := stopsAt_of_stop_head rest hM hMne
        rw [hMc] at this
        exact (by simpa [List.cons_append] using this)
    omega
  rw [hlazy, List.take_left]

/-- A marker search over `prefix ++ marker ++ payload` with a sealed payload
at the end of the input: the payload group is the payload up to the `$`
anchor (possibly excluding a final newline), so it strips to the stripped
payload. -/
theorem markerSearch_end {marker : List Char} {stops : List (List Char)}
    (t a : List Char)
    (hsealT : sealedFor marker t = true) (hne : marker ≠ [])
    (hsealA : ∀ s ∈ stops, sealedFor s a = true) :
    ∃ p, markerSearch marker stops (t ++ (marker ++ a)) = some ⟨t.length, p⟩ ∧
      pyStrip p = pyStrip a := by
  have hfirst : firstMatchPos marker (t ++ (marker ++ a)) = some t.length := by
    rw [firstMatchPos_append t _ (fun i hi => sealedFor_no_occurrence hsealT _ hi),
      firstMatchPos_self hne]
    simp
  have hdrop : (t ++ (marker ++ a)).drop (t.length + marker.length) = a := by
    rw [show t ++ (marker ++ a) = (t ++ marker) ++ a from by simp,
      show t.length + marker.length = (t ++ marker).length from by simp,
      List.drop_left]
  refine ⟨a.take (lazyStop stops a), ?_, ?_⟩
  · rw [markerSearch, hfirst]
    dsimp only
    rw [hdrop]
  · apply take_lazyStop_pyStrip
    intro i hi s hsmem
    have := sealedFor_no_occurrence (hsealA s hsmem) [] (i := i) hi
    rwa [List.append_nil] at this

theorem markerSealed_parts {x : List Char} (h : markerSealed x = true) :
    sealedFor answerMarker x = true ∧ sealedFor callMarker x = true ∧
      sealedFor thinkingMarker x = true := by
  rw [markerSealed, Bool.and_eq_true, Bool.and_eq_true] at h
  exact ⟨h.1.1, h.1.2, h.2⟩

/-- **C5** — For every raw model response that contains both an `ANSWER:`
and a `CALL_FUNCTION:` marker (here: built from a thinking prefix free of
both markers and two payloads free of all recognized markers), the response
parser extracts both payloads — each payload being the text from its marker
up to the next recognized marker or end of input — and the extracted
payloads are the same regardless of which marker appears first. -/
theorem C5_both_markers_order_independent (t a c : List Char)
    (htA : sealedFor answerMarker t = true) (htC : sealedFor callMarker t = true)
    (ha : markerSealed a = true) (hc : markerSealed c = true) :
    ((parseResponse (t ++ (answerMarker ++ (a ++ (callMarker ++ c))))).answerText
        = some (pyStrip a) ∧
     (parseResponse (t ++ (answerMarker ++ (a ++ (callMarker ++ c))))).callText
        = some (pyStrip c)) ∧
    ((parseResponse (t ++ (callMarker ++ (c ++ (answerMarker ++ a))))).answerText
        = some (pyStrip a) ∧
     (parseResponse (t ++ (callMarker ++ (c ++ (answerMarker ++ a))))).callText
        = some (pyStrip c)) := by
  obtain ⟨haA, haC, haT⟩ := markerSealed_parts ha
  obtain ⟨hcA, hcC, hcT⟩ := markerSealed_parts hc
  constructor
  · -- raw₁ = t ++ ANSWER: ++ a ++ CALL_FUNCTION: ++ c
    have hAM : answerSearch (t ++ (answerMarker ++ (a ++ (callMarker ++ c)))) =
        some ⟨t.length, a⟩ := by
      rw [answerSearch]
      refine markerSearch_middle t a c htA (by decide) ?_ (by simp) (by decide)
      intro s hs
      rcases List.mem_cons.mp hs with h | h
      · rw [h]; exact haC
      · rcases List.mem_cons.mp h with h' | h'
        · rw [h']; exact haT
        · simp at h'
    have hCM : ∃ p, callSearch (t ++ (answerMarker ++ (a ++ (callMarker ++ c)))) =
        some ⟨(t ++ (answerMarker ++ a)).length, p⟩ ∧ pyStrip p = pyStrip c := by
      rw [callSearch, show t ++ (answerMarker ++ (a ++ (callMarker ++ c))) =
        (t ++ (answerMarker ++ a)) ++ (callMarker ++ c) from by simp]
      refine markerSearch_end _ c ?_ (by decide) ?_
      · exact sealedFor_append htC (sealedFor_append (by decide) haC)
      · intro s hs
        rcases List.mem_cons.mp hs with h | h
        · rw [h]; exact hcA
        · rcases List.mem_cons.mp h with h' | h'
          · rw [h']; exact hcT
          · simp at h'
    obtain ⟨p, hCMeq, hCMstrip⟩ := hCM
    rw [parseResponse]
    simp only [hAM, hCMeq, Option.map_some', Option.map_some]
    exact ⟨trivial, by simp [hCMstrip]⟩
  · -- raw₂ = t ++ CALL_FUNCTION: ++ c ++ ANSWER: ++ a
    have hCM : callSearch (t ++ (callMarker ++ (c ++ (answerMarker ++ a)))) =
        some ⟨t.length, c⟩ := by
      rw [callSearch]
      refine markerSearch_middle t c a htC (by decide) ?_ (by simp) (by decide)
      intro s hs
      rcases List.mem_cons.mp hs with h | h
      · rw [h]; exact hcA
      · rcases List.mem_cons.mp h with h' | h'
        · rw [h']; exact hcT
        · simp at h'
    have hAM : ∃ p, answerSearch (t ++ (callMarker ++ (c ++ (answerMarker ++ a)))) =
        some ⟨(t ++ (callMarker ++ c)).length, p⟩ ∧ pyStrip p = pyStrip a := by
      rw [answerSearch, show t ++ (callMarker ++ (c ++ (answerMarker ++ a))) =
        (t ++ (callMarker ++ c)) ++ (answerMarker ++ a) from by simp]
      refine markerSearch_end _ a ?_ (by decide) ?_
      · exact sealedFor_append htA (sealedFor_append (by decide) hcA)
      · intro s hs
        rcases List.mem_cons.mp hs with h | h
        · rw [h]; exact haC
        · rcases List.mem_cons.mp h with h' | h'
          · rw [h']; exact haT
          · simp at h'
    obtain ⟨p, hAMeq, hAMstrip⟩ := hAM
    rw [parseResponse]
    simp only [hAMeq, hCM, Option.map_some', Option.map_some]
    exact ⟨by simp [hAMstrip], trivial⟩

/-- Witness for C5 at a concrete chart-flow response. -/
theorem C5_witness :
    ((parseResponse ("Thinking: compute total\n".data ++ (answerMarker ++
        (" Here is the trend\n".data ++ (callMarker ++
          " display_chart(chart_type=bar) ".data))))).answerText
        = some (pyStrip " Here is the trend\n".data) ∧
     (parseResponse ("Thinking: compute total\n".data ++ (answerMarker ++
        (" Here is the trend\n".data ++ (callMarker ++
          " display_chart(chart_type=bar) ".data))))).callText
        = some (pyStrip " display_chart(chart_type=bar) ".data)) ∧
    ((parseResponse ("Thinking: compute total\n".data ++ (callMarker ++
        (" display_chart(chart_type=bar) ".data ++ (answerMarker ++
          " Here is the trend\n".data))))).answerText
        = some (pyStrip " Here is the trend\n".data) ∧
     (parseResponse ("Thinking: compute total\n".data ++ (callMarker ++
        (" display_chart(chart_type=bar) ".data ++ (answerMarker ++
          " Here is the trend\n".data))))).callText
        = some (pyStrip " display_chart(chart_type=bar) ".data)) :=
  C5_both_markers_order_independent "Thinking: compute total\n".data
    " Here is the trend\n".data " display_chart(chart_type=bar) ".data
    (by decide) (by decide) (by decide) (by decide)

/-! ## C1 — sandbox capability claim -/

theorem sandboxNamespaceNames_eq (mid : String) :
    sandboxNamespaceNames (runCodeUserCtx mid) =
      ["pd", "np", "json", "loader", "datetime", "timedelta", "date",
        "__builtins__", "get_user_id"] ++ sandboxBuiltins.map Prod.fst := rfl

/-- **C1** (counterexample) — the claim "no name bound in the fresh globals
or in the curated `__builtins__` mapping lets the snippet open files, spawn
processes, or reach the network" is false on the code: the curated builtins
bind `__import__` (source line 788, commented "ALLOW standard imports"), a
capability-granting name. -/
theorem C1_counterexample :
    "__import__" ∈ sandboxNamespaceNames (runCodeUserCtx "M1") ∧
    "__import__" ∈ spec_ambientCapabilityNames := by
  rw [sandboxNamespaceNames_eq]
  decide

/-- **C1** (amended) — the curated namespace omits the direct
file/process/network builtins (`open`, `exec`, `eval`, `compile`, `input`),
but it does bind `__import__`, through which any module (`os`,
`subprocess`, `socket`) is importable, so the no-capability claim fails for
that one name. -/
theorem C1_amended_theorem (mid : String) :
    ("open" ∉ sandboxNamespaceNames (runCodeUserCtx mid) ∧
     "exec" ∉ sandboxNamespaceNames (runCodeUserCtx mid) ∧
     "eval" ∉ sandboxNamespaceNames (runCodeUserCtx mid) ∧
     "compile" ∉ sandboxNamespaceNames (runCodeUserCtx mid) ∧
     "input" ∉ sandboxNamespaceNames (runCodeUserCtx mid)) ∧
    "__import__" ∈ sandboxNamespaceNames (runCodeUserCtx mid) := by
  rw [sandboxNamespaceNames_eq]
  decide

/-! ## C2 — sandbox statelessness -/

/-- **C2** — no binding from one `run_code` execution is observable in the
next: every call evaluates its snippet on the namespace pair
`(sandboxGlobals ctx, [])` rebuilt from the same clean template, so a name
`n` that the first snippet binds (and that is not part of the template) is
unbound in both namespaces the second snippet starts from. -/
theorem C2_run_code_stateless (oracle : ExecOracle) (code₁ code₂ : List Char)
    (ctx : Namespace) (n : String) (v : PyVal)
    (h₁ : nsLookup n (sandboxGlobals ctx) = none)
    (h₂ : nsLookup n (runCodeEffect oracle code₁ ctx).localsAfter = some v) :
    runCodeEffect oracle code₂ ctx = oracle code₂ (sandboxGlobals ctx) [] ∧
    nsLookup n (sandboxGlobals ctx) = none ∧
    nsLookup n ([] : Namespace) = none :=
  ⟨rfl, h₁, rfl⟩

/-- Witness for C2: a first snippet that binds `total` does not make
`total` visible to the second call's starting namespaces. -/
theorem C2_witness :
    runCodeEffect (fun _ g _ => ⟨g, [("total", .boxed "42")], [], [], none⟩)
        "print(total)".data (runCodeUserCtx "M1") =
      (fun (_ : List Char) (g : Namespace) (_ : Namespace) =>
        (⟨g, [("total", .boxed "42")], [], [], none⟩ : ExecEffect))
        "print(total)".data (sandboxGlobals (runCodeUserCtx "M1")) [] ∧
    nsLookup "total" (sandboxGlobals (runCodeUserCtx "M1")) = none ∧
    nsLookup "total" ([] : Namespace) = none :=
  C2_run_code_stateless (fun _ g _ => ⟨g, [("total", .boxed "42")], [], [], none⟩)
    "total = 42".data "print(total)".data (runCodeUserCtx "M1") "total"
    (.boxed "42") (by rfl) (by rfl)

/-! ## Driver-loop lemmas -/

theorem respThinking_ok {env : DriverEnv} {t : Nat} {raw : List Char}
    (h : env.responses t = .ok raw) (d : List Char) :
    respThinking env t d = (parseResponse raw).thinking := by
  rw [respThinking, h]

/-- If every remaining turn is call-only, the loop runs to exhaustion and
returns the stuck response built from the final turn's thinking trace. -/
theorem driverStep_callOnly (env : DriverEnv) (mid : String) :
    ∀ (fuel turn : Nat) (thinking provided : List Char),
      (∀ t, turn ≤ t → t < turn + fuel → CallOnlyTurn env t) →
      driverStep env mid fuel turn thinking provided =
        (stuckAnswer (if fuel = 0 then thinking
          else respThinking env (turn + fuel - 1) thinking), fuel) := by
  intro fuel
  induction fuel with
  | zero =>
    intro turn thinking provided _
    simp [driverStep, stuckAnswer]
  | succ fuel ih =>
    intro turn thinking provided h
    obtain ⟨raw, hraw, hans, hcall⟩ := h turn (Nat.le_refl _) (by omega)
    obtain ⟨call, hcalleq⟩ := Option.isSome_iff_exists.mp hcall
    have hrec := ih (turn + 1) (parseResponse raw).thinking
      (executeToolCall env.tools mid call).text
      (fun t h₁ h₂ => h t (by omega) (by omega))
    simp only [driverStep, hraw, hans, hcalleq, hrec]
    by_cases hf : fuel = 0
    · subst hf
      simp [respThinking, hraw]
    · have harith : turn + 1 + fuel - 1 = turn + fuel := by omega
      have harith₂ : turn + (fuel + 1) - 1 = turn + fuel := by omega
      obtain ⟨raw', hraw', _, _⟩ := h (turn + fuel) (by omega) (by omega)
      simp [hf, harith, harith₂, respThinking_ok hraw']

/-- If the first `k` turns are call-only and turn `k` raises a service
fault, the loop stops there with the service-error response. -/
theorem driverStep_callOnly_then_error (env : DriverEnv) (mid : String) :
    ∀ (k fuel turn : Nat) (thinking provided e : List Char),
      k < fuel →
      (∀ t, turn ≤ t → t < turn + k → CallOnlyTurn env t) →
      env.responses (turn + k) = .error e →
      driverStep env mid fuel turn thinking provided = (serviceErrorAnswer e, k + 1) := by
  intro k
  induction k with
  | zero =>
    intro fuel turn thinking provided e hk h herr
    cases fuel with
    | zero => omega
    | succ fuel' =>
      simp only [Nat.add_zero] at herr
      simp [driverStep, herr, serviceErrorAnswer]
  | succ k ih =>
    intro fuel turn thinking provided e hk h herr
    cases fuel with
    | zero => omega
    | succ fuel' =>
      obtain ⟨raw, hraw, hans, hcall⟩ := h turn (Nat.le_refl _) (by omega)
      obtain ⟨call, hcalleq⟩ := Option.isSome_iff_exists.mp hcall
      have hrec := ih fuel' (turn + 1) (parseResponse raw).thinking
        (executeToolCall env.tools mid call).text e (by omega)
        (fun t h₁ h₂ => h t (by omega) (by omega))
        (by rw [show turn + 1 + k = turn + (k + 1) from by omega]; exact herr)
      simp only [driverStep, hraw, hans, hcalleq, hrec]

/-- Classification of every driver outcome: the service-error response at a
turn whose model call actually raised, the stuck response with the whole
remaining budget consumed, or a model-supplied termination at a turn whose
response carried an `ANSWER:` payload or neither marker. In particular no
tool-level failure ever produces the terminal response: the call-only branch
(source lines 183–209) always recurses. -/
theorem driverStep_outcome_classes (env : DriverEnv) (mid : String) :
    ∀ (fuel turn : Nat) (thinking provided : List Char),
      (∃ t e, turn ≤ t ∧ t < turn + fuel ∧ env.responses t = .error e ∧
        (driverStep env mid fuel turn thinking provided).1 = serviceErrorAnswer e) ∨
      ((driverStep env mid fuel turn thinking provided).2 = fuel ∧
        ∃ th, (driverStep env mid fuel turn thinking provided).1 = stuckAnswer th) ∨
      (∃ t raw, turn ≤ t ∧ t < turn + fuel ∧ env.responses t = .ok raw ∧
        ModelTermination (parseResponse raw)
          (driverStep env mid fuel turn thinking provided).1) := by
  intro fuel
  induction fuel with
  | zero =>
    intro turn thinking provided
    exact Or.inr (Or.inl ⟨rfl, thinking, rfl⟩)
  | succ fuel ih =>
    intro turn thinking provided
    cases hresp : env.responses turn with
    | error e =>
      refine Or.inl ⟨turn, e, Nat.le_refl _, by omega, hresp, ?_⟩
      simp [driverStep, hresp, serviceErrorAnswer]
    | ok raw =>
      cases hans : (parseResponse raw).answerText with
      | some ans =>
        cases hcall : (parseResponse raw).callText with
        | some call =>
          refine Or.inr (Or.inr ⟨turn, raw, Nat.le_refl _, by omega, hresp, ?_⟩)
          simp only [driverStep, hresp, hans, hcall]
          split
          · split
            · split
              · rename_i chartObj heq htyped
                exact Or.inl ⟨ans, [], [("chart_command", chartObj)], hans, by simp⟩
              · exact Or.inl ⟨ans,
                  "\n\n[Chart display failed: Invalid command format]".data, [],
                  hans, rfl⟩
            · exact Or.inl ⟨ans,
                "\n\n[Chart display failed: Command parse error]".data, [],
                hans, rfl⟩
          · exact Or.inl ⟨ans, [], [], hans, by simp⟩
        | none =>
          refine Or.inr (Or.inr ⟨turn, raw, Nat.le_refl _, by omega, hresp, ?_⟩)
          simp only [driverStep, hresp, hans, hcall]
          exact Or.inl ⟨ans, [], [], hans, by simp⟩
      | none =>
        cases hcall : (parseResponse raw).callText with
        | some call =>
          have hstep : driverStep env mid (fuel + 1) turn thinking provided =
              ((driverStep env mid fuel (turn + 1) (parseResponse raw).thinking
                 (executeToolCall env.tools mid call).text).1,
               (driverStep env mid fuel (turn + 1) (parseResponse raw).thinking
                 (executeToolCall env.tools mid call).text).2 + 1) := by
            simp only [driverStep, hresp, hans, hcall]
          rcases ih (turn + 1) (parseResponse raw).thinking
              (executeToolCall env.tools mid call).text with
            ⟨t, e, ht1, ht2, herr, hres⟩ | ⟨hcnt, th, hres⟩ |
            ⟨t, raw', ht1, ht2, hok, hmt⟩
          · exact Or.inl ⟨t, e, by omega, by omega, herr,
              by rw [hstep]; exact hres⟩
          · exact Or.inr (Or.inl ⟨by rw [hstep]; simp [hcnt], th,
              by rw [hstep]; exact hres⟩)
          · exact Or.inr (Or.inr ⟨t, raw', by omega, by omega, hok,
              by rw [hstep]; exact hmt⟩)
        | none =>
          refine Or.inr (Or.inr ⟨turn, raw, Nat.le_refl _, by omega, hresp, ?_⟩)
          simp only [driverStep, hresp, hans, hcall]
          exact Or.inr ⟨hans, hcall, rfl⟩

/-! ## C3 — exact MAX_TURNS exhaustion -/

/-- **C3** — when every turn yields only a failing tool call, the driver
executes exactly `MAX_TURNS = 10` loop iterations and then returns the
"stuck" response carrying the last thinking trace. -/
theorem C3_maxturns_exact (env : DriverEnv) (mid : String)
    (h : ∀ t, t < MAX_TURNS → ∃ raw, env.responses t = .ok raw ∧
      (parseResponse raw).answerText = none ∧
      ∃ call, (parseResponse raw).callText = some call ∧
        containsSub failMarker (executeToolCall env.tools mid call).text = true) :
    (processMerchantQuestion env mid).2 = MAX_TURNS ∧
    ∀ raw, env.responses (MAX_TURNS - 1) = .ok raw →
      (processMerchantQuestion env mid).1 = stuckAnswer (parseResponse raw).thinking := by
  have hco : ∀ t, 0 ≤ t → t < 0 + MAX_TURNS → CallOnlyTurn env t := by
    intro t _ ht
    obtain ⟨raw, hr, ha, call, hcall, _⟩ := h t (by simpa using ht)
    exact ⟨raw, hr, ha, by simp [hcall]⟩
  have hstep := driverStep_callOnly env mid MAX_TURNS 0 "No thinking yet.".data
    "Initial state. No data provided yet.".data hco
  rw [if_neg (show ¬ MAX_TURNS = 0 by decide)] at hstep
  rw [processMerchantQuestion, hstep]
  refine ⟨rfl, fun raw hraw => ?_⟩
  rw [show (0 + MAX_TURNS - 1) = MAX_TURNS - 1 from by omega, respThinking_ok hraw]

/-- Witness for C3: ten consecutive failing `run_code` turns stop exactly at
turn ten with the stuck message. -/
theorem C3_witness :
    (processMerchantQuestion witnessDriverEnvStuck "M1").2 = MAX_TURNS ∧
    (processMerchantQuestion witnessDriverEnvStuck "M1").1 =
      stuckAnswer (parseResponse witnessFailTurn).thinking := by
  have h := C3_maxturns_exact witnessDriverEnvStuck "M1" (fun t _ =>
    ⟨witnessFailTurn, rfl, by decide,
      "run_code(code_string='x')".data, by decide, by decide⟩)
  exact ⟨h.1, h.2 witnessFailTurn rfl⟩

/-! ## C4 — ServiceError handling -/

theorem serviceError_ne_stuck (e th : List Char) :
    serviceErrorAnswer e ≠ stuckAnswer th := by
  intro h
  simp only [serviceErrorAnswer, stuckAnswer, Json.obj.injEq, List.cons.injEq,
    Prod.mk.injEq, Json.str.injEq, and_true, true_and] at h
  have hdata : "Sorry, error reaching AI service: ".data ++ e =
      "Sorry, I got stuck processing that. Last thought: ".data ++ th :=
    congrArg String.data h
  have h8 := congrArg (List.take 8) hdata
  rw [List.take_append_of_le_length (by decide),
    List.take_append_of_le_length (by decide)] at h8
  exact absurd h8 (by decide)

/-- **C4** (counterexample) — the fatal ServiceError message does not carry
the last thinking trace: after a turn whose thinking is `XYZQ`, a service
fault at the next turn returns `Sorry, error reaching AI service: boom`,
which does not contain `XYZQ`. -/
theorem C4_counterexample :
    (parseResponse "Thinking: XYZQ\nCALL_FUNCTION: run_code(code_string='x')".data).thinking
      = "XYZQ".data ∧
    (processMerchantQuestion witnessDriverEnvError "M1").1 =
      serviceErrorAnswer "boom".data ∧
    containsSub "XYZQ".data "Sorry, error reaching AI service: boom".data = false := by
  refine ⟨by decide, ?_, by decide⟩
  rfl

/-- **C4** (amended) — a ServiceError at any reachable turn is immediately
fatal: the driver stops at that iteration with the distinct
`Sorry, error reaching AI service: …` message carrying the error detail (a
message different from every stuck message, and — contrary to the claim —
not carrying the thinking trace, see the counterexample); and ServiceError
and `MAX_TURNS` exhaustion are the only fatal outcomes: every run in every
environment ends with the service-error response at a turn whose model call
actually raised, the stuck response with the whole turn budget consumed, or
a model-supplied termination (a turn whose response carried an `ANSWER:`
payload or neither marker), and a failing tool call on a call-only turn
always continues the loop instead of terminating it. -/
theorem C4_amended_theorem (env : DriverEnv) (mid : String) (t : Nat) (e : List Char)
    (ht : t < MAX_TURNS)
    (hprev : ∀ u, u < t → CallOnlyTurn env u)
    (herr : env.responses t = .error e) :
    ((processMerchantQuestion env mid).1 = serviceErrorAnswer e ∧
     (processMerchantQuestion env mid).2 = t + 1 ∧
     ∀ th, serviceErrorAnswer e ≠ stuckAnswer th) ∧
    (∀ (env₂ : DriverEnv) (mid₂ : String),
      (∃ u e₂, u < MAX_TURNS ∧ env₂.responses u = .error e₂ ∧
        (processMerchantQuestion env₂ mid₂).1 = serviceErrorAnswer e₂) ∨
      ((processMerchantQuestion env₂ mid₂).2 = MAX_TURNS ∧
        ∃ th, (processMerchantQuestion env₂ mid₂).1 = stuckAnswer th) ∨
      (∃ u raw, u < MAX_TURNS ∧ env₂.responses u = .ok raw ∧
        ModelTermination (parseResponse raw) (processMerchantQuestion env₂ mid₂).1)) ∧
    (∀ (env₂ : DriverEnv) (mid₂ : String) (fuel turn : Nat)
        (thinking provided raw call : List Char),
      env₂.responses turn = .ok raw →
      (parseResponse raw).answerText = none →
      (parseResponse raw).callText = some call →
      (driverStep env₂ mid₂ (fuel + 1) turn thinking provided).2 =
        (driverStep env₂ mid₂ fuel (turn + 1) (parseResponse raw).thinking
          (executeToolCall env₂.tools mid₂ call).text).2 + 1) := by
  refine ⟨?_, ?_, ?_⟩
  · have hstep := driverStep_callOnly_then_error env mid t MAX_TURNS 0
      "No thinking yet.".data "Initial state. No data provided yet.".data e ht
      (fun u _ hu => hprev u (by omega)) (by simpa using herr)
    rw [processMerchantQuestion, hstep]
    exact ⟨rfl, rfl, fun th => serviceError_ne_stuck e th⟩
  · intro env₂ mid₂
    rcases driverStep_outcome_classes env₂ mid₂ MAX_TURNS 0
        "No thinking yet.".data "Initial state. No data provided yet.".data with
      ⟨u, e₂, _, hu2, herr₂, hres⟩ | ⟨hcnt, th, hres⟩ | ⟨u, raw, _, hu2, hok, hmt⟩
    · exact Or.inl ⟨u, e₂, by omega, herr₂, hres⟩
    · exact Or.inr (Or.inl ⟨hcnt, th, hres⟩)
    · exact Or.inr (Or.inr ⟨u, raw, by omega, hok, hmt⟩)
  · intro env₂ mid₂ fuel turn thinking provided raw call hok hans hcall
    simp only [driverStep, hok, hans, hcall]

/-- Witness for C4's amended theorem: the fault at turn 1 of the
counterexample environment stops the driver at iteration 2 with the fatal
message, which differs from the stuck message built from that turn's
thinking. -/
theorem C4_witness :
    (processMerchantQuestion witnessDriverEnvError "M1").1 =
      serviceErrorAnswer "boom".data ∧
    (processMerchantQuestion witnessDriverEnvError "M1").2 = 2 ∧
    serviceErrorAnswer "boom".data ≠ stuckAnswer "XYZQ".data := by
  have h := C4_amended_theorem witnessDriverEnvError "M1" 1 "boom".data
    (by decide)
    (fun u hu => by
      interval_cases u
      exact ⟨"Thinking: XYZQ\nCALL_FUNCTION: run_code(code_string='x')".data,
        rfl, by decide, by decide⟩)
    rfl
  exact ⟨h.1.1, h.1.2.1, h.1.2.2 "XYZQ".data⟩

/-! ## C10 — response shape on every path -/

/-- On every path, the driver's result object is `{"answer": <string>}`,
optionally extended (successful chart path only) with a `"chart_command"`
member whose value is a `type = "chart"` object. -/
theorem driverStep_shape (env : DriverEnv) (mid : String) :
    ∀ (fuel turn : Nat) (thinking provided : List Char),
      ∃ a rest, (driverStep env mid fuel turn thinking provided).1 =
          .obj (("answer", .str a) :: rest) ∧
        (rest = [] ∨ ∃ cmd, rest = [("chart_command", cmd)] ∧ isChartTyped cmd = true) := by
  intro fuel
  induction fuel with
  | zero =>
    intro turn thinking provided
    exact ⟨_, [], rfl, Or.inl rfl⟩
  | succ fuel ih =>
    intro turn thinking provided
    simp only [driverStep]
    split
    · exact ⟨_, [], rfl, Or.inl rfl⟩
    · split
      · split
        · split
          · split
            · exact ⟨_, [("chart_command", _)], rfl, Or.inr ⟨_, rfl, by assumption⟩⟩
            · exact ⟨_, [], rfl, Or.inl rfl⟩
          · exact ⟨_, [], rfl, Or.inl rfl⟩
        · exact ⟨_, [], rfl, Or.inl rfl⟩
      · exact ⟨_, [], rfl, Or.inl rfl⟩
      · exact ih _ _ _
      · exact ⟨_, [], rfl, Or.inl rfl⟩

/-- **C10** — on every path the driver returns a JSON-encoded object whose
top-level `"answer"` key holds a string; only the successful chart path adds
a `"chart_command"` key (holding a `type = "chart"` object); the embedding
is total, so no tool-execution fault propagates to the caller. -/
theorem C10_response_shape (env : DriverEnv) (mid : String) :
    ∃ a rest, (processMerchantQuestion env mid).1 = .obj (("answer", .str a) :: rest) ∧
      (rest = [] ∨ ∃ cmd, rest = [("chart_command", cmd)] ∧ isChartTyped cmd = true) ∧
      processMerchantQuestionText env mid = jDump (.obj (("answer", .str a) :: rest)) := by
  obtain ⟨a, rest, heq, hrest⟩ := driverStep_shape env mid MAX_TURNS 0
    "No thinking yet.".data "Initial state. No data provided yet.".data
  exact ⟨a, rest, heq, hrest, by rw [processMerchantQuestionText, processMerchantQuestion] at *; rw [heq]⟩

/-! ## C9 — report-date defaulting -/

/-- **C6** — for a `display_chart` call whose `chart_type` and `chart_data`
arguments are extractable, the handler returns a ChartCommand (a successful
result whose text is the serialized `type = "chart"` object) if and only if
the chart type is `bar` or `line` and the data parses to a JSON object
containing `labels` together with `data` or `datasets`; every other payload
shape is rejected with a `ParameterError` failure (so in particular a
`chart_data` without `labels` never yields a ChartCommand). -/
theorem C6_display_chart_validation (params ct cd : List Char)
    (hct : simpleQuotedArg "chart_type" params = some ct)
    (hctne : ct.isEmpty = false)
    (hcd : chartDataExtract params = some cd) :
    (((ct = "bar".data ∨ ct = "line".data) ∧ chartDataShapeSpec cd) ↔
      ∃ cmd, displayChartHandler params = ⟨false, jDump cmd⟩ ∧ isChartTyped cmd = true) ∧
    ((displayChartHandler params).failed = true →
      ∃ msg, displayChartHandler params = renderDispatchFailure "ParameterError" msg) := by
  have hred : displayChartHandler params =
      (if ¬ (ct = "line".data ∨ ct = "bar".data) then
        renderDispatchFailure "ParameterError"
          ("display_chart: Unsupported chart_type '".data ++ ct
            ++ "'. Only 'bar' is supported.".data)
      else
        match jsonLoads cd with
        | some chartObj =>
          if chartDataShapeOK chartObj then
            ⟨false, jDump (mkChartCommand ct chartObj (simpleQuotedArg "title" params)
              (simpleQuotedArg "x_label" params) (simpleQuotedArg "y_label" params))⟩
          else
            renderDispatchFailure "ParameterError"
              ("display_chart: Invalid JSON in 'chart_data': ".data
                ++ "chart_data JSON structure invalid (missing labels/data or labels/datasets)".data
                ++ ". Received: '".data ++ pyTake 100 cd ++ "...".data
                ++ cd.drop (cd.length - 100) ++ "'".data)
        | none =>
          renderDispatchFailure "ParameterError"
            ("display_chart: Invalid JSON in 'chart_data': JSONDecodeError. Received: '".data
              ++ pyTake 100 cd ++ "...".data
              ++ cd.drop (cd.length - 100) ++ "'".data)) := by
    rw [displayChartHandler]
    simp only [hct, hcd, Option.isNone_some, hctne, Option.getD_some]
    rw [if_neg (by simp)]
  constructor
  · constructor
    · rintro ⟨hsup, ms, hload, hlab, hdat⟩
      refine ⟨mkChartCommand ct (.obj ms) (simpleQuotedArg "title" params)
        (simpleQuotedArg "x_label" params) (simpleQuotedArg "y_label" params), ?_, ?_⟩
      · rw [hred, if_neg (not_not_intro hsup.symm), hload]
        dsimp only
        rw [if_pos (by
          rw [chartDataShapeOK, hlab]
          rcases hdat with h | h <;> simp [h])]
      · rfl
    · rintro ⟨cmd, hcmd, _⟩
      rw [hred] at hcmd
      by_cases hsup : ct = "line".data ∨ ct = "bar".data
      · rw [if_neg (not_not_intro hsup)] at hcmd
        cases hload : jsonLoads cd with
        | none =>
          rw [hload] at hcmd
          dsimp only at hcmd
          exact absurd (congrArg ToolResult.failed hcmd) (by simp [renderDispatchFailure])
        | some chartObj =>
          rw [hload] at hcmd
          dsimp only at hcmd
          by_cases hshape : chartDataShapeOK chartObj = true
          · refine ⟨by tauto, ?_⟩
            cases chartObj with
            | obj ms =>
              rw [chartDataShapeOK, Bool.and_eq_true, Bool.or_eq_true] at hshape
              exact ⟨ms, hload, hshape.1, hshape.2⟩
            | null => simp [chartDataShapeOK] at hshape
            | bool b => simp [chartDataShapeOK] at hshape
            | num n => simp [chartDataShapeOK] at hshape
            | str s => simp [chartDataShapeOK] at hshape
            | arr xs => simp [chartDataShapeOK] at hshape
          · rw [if_neg hshape] at hcmd
            exact absurd (congrArg ToolResult.failed hcmd) (by simp [renderDispatchFailure])
      · rw [if_pos hsup] at hcmd
        exact absurd (congrArg ToolResult.failed hcmd) (by simp [renderDispatchFailure])
  · intro hfail
    rw [hred] at hfail
    by_cases hsup : ct = "line".data ∨ ct = "bar".data
    · rw [if_neg (not_not_intro hsup)] at hfail
      cases hload : jsonLoads cd with
      | none =>
        refine ⟨"display_chart: Invalid JSON in 'chart_data': JSONDecodeError. Received: '".data
          ++ pyTake 100 cd ++ "...".data ++ cd.drop (cd.length - 100) ++ "'".data, ?_⟩
        rw [hred, if_neg (not_not_intro hsup), hload]
      | some chartObj =>
        rw [hload] at hfail
        dsimp only at hfail
        by_cases hshape : chartDataShapeOK chartObj = true
        · rw [if_pos hshape] at hfail
          simp at hfail
        · refine ⟨"display_chart: Invalid JSON in 'chart_data': ".data
            ++ "chart_data JSON structure invalid (missing labels/data or labels/datasets)".data
            ++ ". Received: '".data ++ pyTake 100 cd ++ "...".data
            ++ cd.drop (cd.length - 100) ++ "'".data, ?_⟩
          rw [hred, if_neg (not_not_intro hsup), hload]
          dsimp only
          rw [if_neg hshape]
    · refine ⟨"display_chart: Unsupported chart_type '".data ++ ct
        ++ "'. Only 'bar' is supported.".data, ?_⟩
      rw [hred, if_pos hsup]

/-- Witness for C6 at a concrete valid bar-chart call, and the headline
special case: a `chart_data` missing `labels` cannot yield a ChartCommand. -/
theorem C6_witness :
    (∃ cmd, displayChartHandler
        "chart_type='bar', chart_data='\x7b\"labels\":[\"Mon\"],\"data\":[5]\x7d'".data
        = ⟨false, jDump cmd⟩ ∧ isChartTyped cmd = true) ∧
    ¬ ∃ cmd, displayChartHandler
        "chart_type='bar', chart_data='\x7b\"data\":[5]\x7d'".data
        = ⟨false, jDump cmd⟩ ∧ isChartTyped cmd = true := by
  constructor
  · exact (C6_display_chart_validation
      "chart_type='bar', chart_data='\x7b\"labels\":[\"Mon\"],\"data\":[5]\x7d'".data
      "bar".data "\x7b\"labels\":[\"Mon\"],\"data\":[5]\x7d".data
      (by decide) (by decide) (by decide)).1.mp
      ⟨Or.inl rfl, [("labels", .arr [.str "Mon"]), ("data", .arr [.num "5"])],
        rfl, by decide, Or.inl (by decide)⟩
  · intro hex
    have h := (C6_display_chart_validation
      "chart_type='bar', chart_data='\x7b\"data\":[5]\x7d'".data
      "bar".data "\x7b\"data\":[5]\x7d".data
      (by decide) (by decide) (by decide)).1.mpr hex
    rcases h with ⟨_, ms, hload, hlab, _⟩
    have heval : jsonLoads "\x7b\"data\":[5]\x7d".data =
        some (.obj [("data", .arr [.num "5"])]) := rfl
    rw [heval] at hload
    injection hload with hsome
    injection hsome with hms
    rw [← hms] at hlab
    exact absurd hlab (by decide)

/-! ## C7 — the "Execution Failed" routing marker -/

theorem renderDispatchFailure_contains (errType : String) (msg : List Char) :
    containsSub failMarker (renderDispatchFailure errType msg).text = true := by
  rw [renderDispatchFailure]
  have hsplit : "--- Execution Failed ---\n--- Error Type ---\n".data =
      "--- ".data ++ (failMarker ++ " ---\n--- Error Type ---\n".data) := by decide
  rw [hsplit]
  rw [show ("--- ".data ++ (failMarker ++ " ---\n--- Error Type ---\n".data)) ++ errType.data
      ++ "\n--- Error Message ---\n".data ++ msg =
      "--- ".data ++ (failMarker ++ (" ---\n--- Error Type ---\n".data ++ errType.data
        ++ "\n--- Error Message ---\n".data ++ msg)) from by simp]
  exact containsSub_middle _ _ _

theorem contains_fail_of_prefix (rest : List Char) :
    containsSub failMarker ("--- Execution Failed ---\n".data ++ rest) = true := by
  rw [show "--- Execution Failed ---\n".data =
    "--- ".data ++ (failMarker ++ " ---\n".data) from by decide]
  simp only [List.append_assoc]
  exact containsSub_middle _ _ _

theorem pyStrip_execution_failed (mid tail : List Char) :
    containsSub failMarker
      (pyStrip (("--- Execution Failed ---\n".data ++ mid) ++ ("--- Error ".data ++ tail)))
      = true := by
  rw [pyStrip]
  have hcons₁ : ("--- Execution Failed ---\n".data ++ mid) ++ ("--- Error ".data ++ tail) =
      '-' :: (("-- Execution Failed ---\n".data ++ mid) ++ ("--- Error ".data ++ tail)) := by
    rw [show "--- Execution Failed ---\n".data =
      '-' :: "-- Execution Failed ---\n".data from rfl]
    simp
  have hL : stripLeft (("--- Execution Failed ---\n".data ++ mid)
      ++ ("--- Error ".data ++ tail)) =
      ("--- Execution Failed ---\n".data ++ mid) ++ ("--- Error ".data ++ tail) := by
    rw [hcons₁, stripLeft_cons_not_ws _ (by decide)]
  rw [hL]
  have hB : stripRight ("--- Error ".data ++ tail) ≠ [] := by
    rw [show "--- Error ".data ++ tail = '-' :: ("-- Error ".data ++ tail) from by
      rw [show "--- Error ".data = '-' :: "-- Error ".data from rfl]; simp]
    exact stripRight_cons_ne_nil _ (by decide)
  rw [stripRight_append_of_ne_nil _ hB]
  rw [show ("--- Execution Failed ---\n".data ++ mid)
      ++ stripRight ("--- Error ".data ++ tail) =
      "--- Execution Failed ---\n".data
        ++ (mid ++ stripRight ("--- Error ".data ++ tail)) from by simp]
  exact contains_fail_of_prefix _

theorem renderRunCodeFailure_contains (so se : List Char) (ty : String)
    (msg : List Char) :
    containsSub failMarker (renderRunCodeFailure so se ty msg) = true := by
  rw [renderRunCodeFailure]
  generalize (if (pyStrip so).isEmpty then ([] : List Char) else
    "--- stdout (before error) ---\n".data ++ pyStrip so ++ "\n".data) = p₁
  generalize (if (pyStrip se).isEmpty then ([] : List Char) else
    "--- stderr (before error) ---\n".data ++ pyStrip se ++ "\n".data) = p₂
  have harg : "--- Execution Failed ---\n".data ++ p₁ ++ p₂
      ++ "--- Error Type ---\n".data ++ ty.data
      ++ "\n--- Error Message ---\n".data ++ msg =
      ("--- Execution Failed ---\n".data ++ (p₁ ++ p₂))
        ++ ("--- Error ".data ++ ("Type ---\n".data ++ (ty.data
          ++ ("\n--- Error Message ---\n".data ++ msg)))) := by
    rw [show "--- Error Type ---\n".data =
      "--- Error ".data ++ "Type ---\n".data from by decide]
    simp
  rw [harg]
  exact pyStrip_execution_failed _ _

theorem runCode_failed_contains (o : ExecOracle) (c : List Char) (ctx : Namespace)
    (h : (runCode o c ctx).failed = true) :
    containsSub failMarker (runCode o c ctx).text = true := by
  simp only [runCode] at h ⊢
  cases hexc : (runCodeEffect o c ctx).exc with
  | none => rw [hexc] at h; simp at h
  | some v =>
    obtain ⟨ty, msg⟩ := v
    exact renderRunCodeFailure_contains _ _ _ _

/-- Every branch of the `display_chart` handler is a `ParameterError`
failure payload or a success payload. -/
theorem displayChartHandler_cases (params : List Char) :
    (∃ msg, displayChartHandler params = renderDispatchFailure "ParameterError" msg) ∨
    (displayChartHandler params).failed = false := by
  simp only [displayChartHandler]
  split
  · exact Or.inl ⟨_, rfl⟩
  · split
    · exact Or.inl ⟨_, rfl⟩
    · split
      · split
        · exact Or.inr rfl
        · exact Or.inl ⟨_, rfl⟩
      · exact Or.inl ⟨_, rfl⟩

theorem displayChartHandler_failed_contains (params : List Char)
    (h : (displayChartHandler params).failed = true) :
    containsSub failMarker (displayChartHandler params).text = true := by
  rcases displayChartHandler_cases params with ⟨msg, heq⟩ | hok
  · rw [heq]; exact renderDispatchFailure_contains _ _
  · rw [hok] at h; exact absurd h (by simp)

/-- Every result of the dispatcher is a dispatch failure payload, a
`run_code` result, a `display_chart` result, or a success payload. -/
theorem executeToolCall_cases (env : ToolEnv) (mid : String) (call : List Char) :
    (∃ ty msg, executeToolCall env mid call = renderDispatchFailure ty msg) ∨
    (∃ code, executeToolCall env mid call = runCode env.exec code (runCodeUserCtx mid)) ∨
    (∃ p, executeToolCall env mid call = displayChartHandler p) ∨
    (executeToolCall env mid call).failed = false := by
  simp only [executeToolCall]
  split
  · exact Or.inl ⟨_, _, rfl⟩
  · split
    · split
      · exact Or.inl ⟨_, _, rfl⟩
      · split
        · split
          · exact Or.inr (Or.inl ⟨_, rfl⟩)
          · split
            · exact Or.inl ⟨_, _, rfl⟩
            · exact Or.inl ⟨_, _, rfl⟩
        · split
          · exact Or.inr (Or.inr (Or.inr rfl))
          · split
            · exact Or.inr (Or.inr (Or.inr rfl))
            · split
              · exact Or.inr (Or.inr (Or.inl ⟨_, rfl⟩))
              · exact Or.inl ⟨_, _, rfl⟩
    · exact Or.inl ⟨_, _, rfl⟩

/-- **C7** (counterexample) — the marker test is not an "if and only if": a
successful `run_code` whose snippet prints the literal text
`Execution Failed` produces a success payload that contains the marker, so
the driver would route this success as a failure. -/
theorem C7_counterexample :
    (executeToolCall witnessToolEnv "M1"
      "run_code(code_string='print(\\'Execution Failed\\')')".data).failed = false ∧
    containsSub failMarker
      (executeToolCall witnessToolEnv "M1"
        "run_code(code_string='print(\\'Execution Failed\\')')".data).text = true := by
  constructor
  · decide
  · decide

/-- **C7** (amended) — the sound direction holds universally: whenever a
dispatched tool call fails, the result string contains the fixed marker
`Execution Failed`, so the driver routes every failure back to the model as
recoverable.  The converse fails when a successful snippet's own output
contains the marker text (see the counterexample). -/
theorem C7_failed_implies_marker (env : ToolEnv) (mid : String) (call : List Char)
    (h : (executeToolCall env mid call).failed = true) :
    containsSub failMarker (executeToolCall env mid call).text = true := by
  rcases executeToolCall_cases env mid call with
    ⟨ty, msg, heq⟩ | ⟨code, heq⟩ | ⟨p, heq⟩ | hok
  · rw [heq]; exact renderDispatchFailure_contains _ _
  · rw [heq] at h ⊢; exact runCode_failed_contains _ _ _ h
  · rw [heq] at h ⊢; exact displayChartHandler_failed_contains _ h
  · rw [hok] at h; exact absurd h (by simp)

/-- Witness for C7's amended theorem: an unknown tool name fails and its
result carries the marker. -/
theorem C7_witness :
    containsSub failMarker
      (executeToolCall witnessToolEnv "M1" "nonsense_tool(x='1')".data).text = true :=
  C7_failed_implies_marker witnessToolEnv "M1" "nonsense_tool(x='1')".data (by decide)

/-! ## C8 — code_string extraction and unescaping -/

theorem closingQuoteScan_append_quote (q : Char) (hq : isPyWS q = false)
    (s : List Char) : closingQuoteScan q (s ++ [q]) = some s := by
  induction s with
  | nil => simp [closingQuoteScan]
  | cons c rest ih =>
    rw [List.cons_append, closingQuoteScan, if_neg, ih]
    · rfl
    · rintro ⟨_, h2⟩
      have := List.all_eq_true.mp h2 q (by simp)
      simp [hq] at this

/-- The `code_string` regex on a canonically quoted parameter block
extracts the full raw value: an escaped quote inside the value never
terminates the lazy scan, because the closing-quote candidate must be
followed by nothing but whitespace up to the end of the block. -/
theorem codeStringExtract_canonical (s : List Char) :
    codeStringExtract ("code_string='".data ++ (s ++ ['\''])) = some s := by
  rw [show ("code_string='".data ++ (s ++ ['\''])) =
    'c' :: ("ode_string='".data ++ (s ++ ['\''])) from rfl]
  rw [codeStringExtract, if_pos ?hpre]
  case hpre =>
    rw [show 'c' :: ("ode_string='".data ++ (s ++ ['\''])) =
      "code_string".data ++ ("='".data ++ (s ++ ['\''])) from rfl]
    exact isPrefixOfCI_append_self _ _
  rw [show ('c' :: ("ode_string='".data ++ (s ++ ['\'']))).drop "code_string".length =
    '=' :: '\'' :: (s ++ ['\'']) from rfl]
  rw [show codeStringTailMatch ('=' :: '\'' :: (s ++ ['\''])) =
    closingQuoteScan '\'' (s ++ ['\'']) from rfl]
  rw [closingQuoteScan_append_quote '\'' (by decide) s]

theorem unicodeEscapeDecode_wf (s : List Char) (h : escWF s = true) :
    unicodeEscapeDecode s = some (decodeEscapes s) := by
  induction s using escWF.induct with
  | case1 => rfl
  | case2 => simp [escWF] at h
  | case3 c rest ih =>
    rw [escWF, Bool.and_eq_true] at h
    obtain ⟨hesc, hrest⟩ := h
    cases hc : simpleEscape c with
    | none => rw [hc] at hesc; simp at hesc
    | some e =>
      rw [unicodeEscapeDecode, decodeEscapes, hc, ih hrest]
      rfl
  | case4 c rest hne₁ hne₂ ih =>
    have hcb : c ≠ '\\' := by
      intro hc
      cases rest with
      | nil => exact hne₁ hc rfl
      | cons a t => exact hne₂ a t hc rfl
    rw [show escWF (c :: rest) = (decide (c ≠ '\'') && escWF rest) from by
      simp [escWF, hcb]] at h
    rw [Bool.and_eq_true] at h
    rw [show unicodeEscapeDecode (c :: rest) =
      (unicodeEscapeDecode rest).map (fun r => c :: r) from by
      simp [unicodeEscapeDecode, hcb]]
    rw [show decodeEscapes (c :: rest) = c :: decodeEscapes rest from by
      simp [decodeEscapes, hcb]]
    rw [ih h.2]
    rfl

theorem mem_decode_of_escaped_quote (s : List Char) (h : escWF s = true)
    (hq : containsSub ['\\', '\''] s = true) : '\'' ∈ decodeEscapes s := by
  induction s using escWF.induct with
  | case1 => simp [containsSub, List.isPrefixOf] at hq
  | case2 => simp [escWF] at h
  | case3 c rest ih =>
    rw [escWF, Bool.and_eq_true] at h
    obtain ⟨hesc, hrest⟩ := h
    rw [containsSub, Bool.or_eq_true] at hq
    rcases hq with hpre | hsub
    · simp only [List.isPrefixOf, Bool.and_eq_true, beq_iff_eq] at hpre
      have hc : c = '\'' := hpre.2.1.symm
      subst hc
      rw [decodeEscapes]
      simp [simpleEscape]
    · rw [containsSub, Bool.or_eq_true] at hsub
      rcases hsub with hpre' | hsub'
      · exfalso
        simp only [List.isPrefixOf, Bool.and_eq_true, beq_iff_eq] at hpre'
        obtain ⟨hc1, htail⟩ := hpre'
        cases rest with
        | nil => simp [List.isPrefixOf] at htail
        | cons a t =>
          simp only [List.isPrefixOf, Bool.and_eq_true, beq_iff_eq] at htail
          rw [← htail.1] at hrest
          simp [escWF] at hrest
      · have hmem := ih hrest hsub'
        rw [decodeEscapes]
        cases hc : simpleEscape c with
        | none => rw [hc] at hesc; simp at hesc
        | some e => simp [hmem]
  | case4 c rest hne₁ hne₂ ih =>
    have hcb : c ≠ '\\' := by
      intro hc
      cases rest with
      | nil => exact hne₁ hc rfl
      | cons a t => exact hne₂ a t hc rfl
    rw [show escWF (c :: rest) = (decide (c ≠ '\'') && escWF rest) from by
      simp [escWF, hcb]] at h
    rw [Bool.and_eq_true] at h
    rw [containsSub, Bool.or_eq_true] at hq
    rcases hq with hpre | hsub
    · exfalso
      simp only [List.isPrefixOf, Bool.and_eq_true, beq_iff_eq] at hpre
      exact hcb hpre.1.symm
    · have hmem := ih h.2 hsub
      rw [show decodeEscapes (c :: rest) = c :: decodeEscapes rest from by
        simp [decodeEscapes, hcb]]
      exact List.mem_cons_of_mem _ hmem

/-- **C8** — for a `run_code` fragment whose single-quoted `code_string`
value contains an escaped quote and an embedded newline escape (and whose
escapes are the standard ones), the tool-call syntax parser extracts the
full raw value — an escaped quote does not terminate the scan — and the
standard escape sequences are decoded to their literal characters
(`decodeEscapes`) before the code reaches the sandbox: the stripped decoded
text is exactly what the `run_code` branch executes. -/
theorem C8_code_string_unescaping (s : List Char)
    (hwf : escWF s = true)
    (hq : containsSub ['\\', '\''] s = true)
    (hn : containsSub ['\\', 'n'] s = true) :
    codeStringExtract ("code_string='".data ++ (s ++ ['\''])) = some s ∧
    runCodeArgOfParams ("code_string='".data ++ (s ++ ['\''])) =
      some (pyStrip (decodeEscapes s)) := by
  have hext := codeStringExtract_canonical s
  refine ⟨hext, ?_⟩
  rw [runCodeArgOfParams, hext]
  dsimp only
  rw [show decodeCodeString s = decodeEscapes s from by
    rw [decodeCodeString, unicodeEscapeDecode_wf s hwf]]
  rw [if_neg ?hne]
  case hne =>
    intro hcon
    have hmem := mem_decode_of_escaped_quote s hwf hq
    exact pyStrip_ne_nil_of_mem hmem (by decide) (List.isEmpty_iff.mp hcon)

/-- Witness for C8 on the value `print(\'hi\')\nx=2`. -/
theorem C8_witness :
    codeStringExtract ("code_string='".data ++ ("print(\\'hi\\')\\nx=2".data ++ ['\''])) =
      some "print(\\'hi\\')\\nx=2".data ∧
    runCodeArgOfParams ("code_string='".data ++ ("print(\\'hi\\')\\nx=2".data ++ ['\''])) =
      some (pyStrip (decodeEscapes "print(\\'hi\\')\\nx=2".data)) :=
  C8_code_string_unescaping "print(\\'hi\\')\\nx=2".data (by decide) (by decide) (by decide)

end MexAssistant
